import Mathlib

/-!
Shallow embedding of `MdeModulePkg/Library/DxeCapsuleLibFmp/DxeCapsuleProcessLib.c`
(the DXE capsule process library) and proofs about its behaviour.

The C file orchestrates firmware-update capsules staged in HOBs: it discovers
them (`InitCapsulePtr`), tracks a parallel status array, publishes capsules
flagged `CAPSULE_FLAGS_POPULATE_SYSTEM_TABLE` into the configuration table
(`PopulateCapsuleInConfigurationTable`), sweeps them applying or deferring each
(`ProcessTheseCapsules`), and finally decides whether to reset the platform
(`ProcessCapsules` / `DoResetSystem`).  External collaborators (the header
validator, the FMP shape probe, the FMP layout validator, the image-apply
routine, the display sink, PCD values, and the success/failure of each pool
allocation) are modelled as an explicit environment record `Env`; observable
side effects (watchdog and display calls, configuration-table installations,
apply-delegate invocations) are returned as explicit data.
-/

/-- Model of EFI_GUID: a fixed-size identity key.  Only equality of GUIDs is
observed by this library, so the model wraps a single natural number. -/
structure Guid where
  val : Nat
deriving DecidableEq, Repr

/-- Model of the well-known Windows UX (display/branding) capsule GUID
`gWindowsUxCapsuleGuid`.  The concrete value is irrelevant; it is a fixed,
distinguished key. -/
def gWindowsUxCapsuleGuid : Guid := ⟨0x3B8C8162⟩

/-- Model of `gCapsuleUpdateCompleteResetGuid`, the reset-subtype GUID used by
`DoResetSystem`. -/
def gCapsuleUpdateCompleteResetGuid : Guid := ⟨0x82B1B69C⟩

/-- Model of EFI_STATUS restricted to the values this library produces or
inspects.  `notReady` models EFI_NOT_READY (used as the Pending marker in the
status array), `aborted` models EFI_ABORTED, and so on. -/
inductive EfiStatus where
  | success
  | notReady
  | aborted
  | invalidParameter
  | unsupported
  | outOfResources
  | volumeCorrupted
  | deviceError
deriving DecidableEq, Repr

/-- Logical header fields of EFI_CAPSULE_HEADER read by this library:
`CapsuleGuid` and `Flags`. -/
structure CapsuleHeader where
  capsuleGuid : Guid
  flags : Nat
deriving DecidableEq, Repr

/-- Value of the UEFI flag `CAPSULE_FLAGS_POPULATE_SYSTEM_TABLE`. -/
def capsuleFlagsPopulateSystemTable : Nat := 0x00010000

/-- Model of one EFI_HOB_UEFI_CAPSULE from the boot handoff list: the capsule
header at `BaseAddress` plus the HOB's declared `Length`. -/
structure Hob where
  header : CapsuleHeader
  length : Nat
deriving DecidableEq, Repr

/-- Model of EDKII_FIRMWARE_MANAGEMENT_PROGRESS_PROTOCOL (`mFmpProgress`):
a watchdog timeout in seconds and a progress-bar foreground color. -/
structure FmpProgressProtocol where
  watchdogSeconds : Nat
  progressBarColor : Nat
deriving DecidableEq, Repr

/-- Environment of the library: the external delegate routines it calls, the
PCD configuration values it reads, and the outcome of each pool allocation it
performs.  Delegates are pure functions of the capsule header, matching the
single-threaded, synchronous execution model of the source. -/
structure Env where
  /-- Delegate `IsValidCapsuleHeader (CapsuleHeader, CapsuleSize)`. -/
  IsValidCapsuleHeader : CapsuleHeader → Nat → Bool
  /-- Delegate `IsFmpCapsule (CapsuleHeader)`: the firmware-management shape
  probe. -/
  IsFmpCapsule : CapsuleHeader → Bool
  /-- Delegate `ValidateFmpCapsule (CapsuleHeader, &EmbeddedDriverCount)`:
  `some count` on EFI_SUCCESS, `none` on failure. -/
  ValidateFmpCapsule : CapsuleHeader → Option Nat
  /-- Delegate `ProcessThisCapsuleImage (CapsuleHeader, &ResetRequired)`:
  the returned EFI_STATUS together with the ResetRequired output. -/
  ProcessThisCapsuleImage : CapsuleHeader → EfiStatus × Bool
  /-- PCD `PcdSystemRebootAfterCapsuleProcessFlag`. -/
  rebootFlagMask : Nat
  /-- Whether `AllocateZeroPool` for `mCapsulePtr` succeeds. -/
  allocCapsulePtrOk : Bool
  /-- Whether `AllocateZeroPool` for `mCapsuleStatusArray` succeeds. -/
  allocStatusArrayOk : Bool
  /-- Whether `AllocateZeroPool` for `CapsulePtrCache` succeeds. -/
  allocPtrCacheOk : Bool
  /-- Whether `AllocateZeroPool` for `CapsuleGuidCache` succeeds. -/
  allocGuidCacheOk : Bool
  /-- Whether `AllocateRuntimePool` for the `CapsuleTable` of a given GUID
  succeeds. -/
  allocCapsuleTableOk : Guid → Bool
  /-- The optional `mFmpProgress` protocol instance. -/
  fmpProgress : Option FmpProgressProtocol
  /-- Delegate `DisplayUpdateProgress (Completion, Color)`. -/
  DisplayUpdateProgress : Nat → Option Nat → EfiStatus
  /-- PCD `PcdCapsuleUpdateWatchdogTimeInSeconds`. -/
  pcdCapsuleUpdateWatchdogSeconds : Nat

/-- Observable side effects of the progress-reporting routines: a call to
`gBS->SetWatchdogTimer` with the given timeout (zero cancels the watchdog), or
a call to `DisplayUpdateProgress` with a percentage and optional color. -/
inductive ProgressEvent where
  | watchdog (seconds : Nat)
  | display (completion : Nat) (color : Option Nat)
deriving DecidableEq, Repr

/-- Embedding of `UpdateImageProgress` (source lines 133-177).  Returns the
EFI_STATUS result together with the ordered list of watchdog/display calls
made.  Mirrors the source: reject `Completion > 100` before any side effect;
source `Seconds` and `Color` from `mFmpProgress` when present (default 5*60
seconds, no color); cancel the watchdog; re-arm it only when `Completion` is
not 100 and `Seconds` is nonzero; finally forward to the display delegate. -/
def UpdateImageProgress (env : Env) (completion : Nat) :
    EfiStatus × List ProgressEvent :=
  if 100 < completion then (.invalidParameter, [])
  else
    let seconds : Nat :=
      match env.fmpProgress with
      | none => 5 * 60
      | some p => p.watchdogSeconds
    let color : Option Nat :=
      match env.fmpProgress with
      | none => none
      | some p => some p.progressBarColor
    let ev1 : List ProgressEvent := [.watchdog 0]
    let ev2 : List ProgressEvent :=
      if completion ≠ 100 then
        if seconds ≠ 0 then ev1 ++ [.watchdog seconds] else ev1
      else ev1
    (env.DisplayUpdateProgress completion color,
     ev2 ++ [.display completion color])

/-- Embedding of `Update_Image_Progress` (source lines 610-641), the
MS_CHANGE alternative entry point.  It splits its argument: bits 8-31 become
the display color (`(Completion >> 8) & 0xFFFFFF`) and only the low byte is
kept as the percentage (`Completion &= 0xFF`); it then rejects a low byte
above 100, cancels the watchdog, re-arms it from the PCD unless the low byte
is exactly 100, and forwards to the display delegate. -/
def Update_Image_Progress (env : Env) (completionArg : Nat) :
    EfiStatus × List ProgressEvent :=
  let color : Nat := (completionArg >>> 8) &&& 0xFFFFFF
  let completion : Nat := completionArg &&& 0xFF
  if 100 < completion then (.invalidParameter, [])
  else
    let ev1 : List ProgressEvent := [.watchdog 0]
    let ev2 : List ProgressEvent :=
      if completion ≠ 100 then
        ev1 ++ [.watchdog env.pcdCapsuleUpdateWatchdogSeconds]
      else ev1
    (env.DisplayUpdateProgress completion (some color),
     ev2 ++ [.display completion (some color)])

/-- Watchdog timeout `UpdateImageProgress` would use: the protocol's value
when `mFmpProgress` is present, the fixed default of 300 seconds otherwise. -/
def progressWatchdogSeconds (env : Env) : Nat :=
  match env.fmpProgress with
  | none => 5 * 60
  | some p => p.watchdogSeconds

/-- Color `UpdateImageProgress` forwards to the display delegate. -/
def progressColor (env : Env) : Option Nat :=
  match env.fmpProgress with
  | none => none
  | some p => some p.progressBarColor

/-- Global mutable state of the library: `mCapsulePtr` (the discovered capsule
sequence), `mCapsuleStatusArray` (the parallel status array, EFI_NOT_READY
meaning Pending), and `mNeedReset`. -/
structure CapsuleState where
  capsules : List CapsuleHeader
  statuses : List EfiStatus
  needReset : Bool
deriving DecidableEq, Repr

/-- The pristine global state before any call: `mCapsulePtr` empty,
`mCapsuleTotalNumber = 0`, `mNeedReset = FALSE`. -/
def pristineState : CapsuleState := ⟨[], [], false⟩

/-- Embedding of `InitCapsulePtr` (source lines 182-237): the discovered
capsule sequence and its status array.  HOBs failing `IsValidCapsuleHeader`
are dropped (marked unused) and not counted.  If either allocation fails the
routine degrades to zero capsules.  On success every status is initialized to
EFI_NOT_READY. -/
def InitCapsulePtr (env : Env) (hobs : List Hob) :
    List CapsuleHeader × List EfiStatus :=
  let valid : List CapsuleHeader :=
    (hobs.filter (fun h => env.IsValidCapsuleHeader h.header h.length)).map
      (fun h => h.header)
  if valid.length = 0 then ([], [])
  else if !env.allocCapsulePtrOk then ([], [])
  else if !env.allocStatusArrayOk then ([], [])
  else (valid, List.replicate valid.length EfiStatus.notReady)

/-- Embedding of `AreAllImagesProcessed` (source lines 245-259): true iff no
status entry equals EFI_NOT_READY. -/
def AreAllImagesProcessed (statuses : List EfiStatus) : Bool :=
  statuses.all (fun s => s != EfiStatus.notReady)

/-- Does this capsule carry `CAPSULE_FLAGS_POPULATE_SYSTEM_TABLE`? -/
def hasPopulateFlag (c : CapsuleHeader) : Bool :=
  c.flags &&& capsuleFlagsPopulateSystemTable != 0

/-- First loop of `PopulateCapsuleInConfigurationTable` (source lines
311-330): collect the distinct `CapsuleGuid` values of the capsules flagged
`CAPSULE_FLAGS_POPULATE_SYSTEM_TABLE`, preserving first-seen order
(`CapsuleGuidCache`). -/
def collectGuidCache (caps : List CapsuleHeader) : List Guid :=
  caps.foldl
    (fun acc c =>
      if hasPopulateFlag c then
        if acc.contains c.capsuleGuid then acc else acc ++ [c.capsuleGuid]
      else acc)
    []

/-- Inner gather of the second loop of `PopulateCapsuleInConfigurationTable`
(source lines 343-353): all flagged capsules whose GUID equals `g`, in
original discovery order (`CapsulePtrCache`). -/
def capsulesWithGuid (caps : List CapsuleHeader) (g : Guid) :
    List CapsuleHeader :=
  caps.filter (fun c => hasPopulateFlag c && c.capsuleGuid == g)

/-- One EFI_CAPSULE_TABLE registration made via
`gBS->InstallConfigurationTable`: the GUID key, the `CapsuleArrayNumber`
count field, and the copied capsule pointer array. -/
structure CapsuleTableEntry where
  guid : Guid
  count : Nat
  ptrs : List CapsuleHeader
deriving DecidableEq, Repr

/-- Body of the second loop of `PopulateCapsuleInConfigurationTable` (source
lines 341-368) for one cached GUID `g`: gather the flagged capsules with that
GUID; when the group is nonempty, allocate the `CapsuleTable` (skipping this
GUID on allocation failure, `continue`) and register
`{CapsuleArrayNumber = count, CapsulePtr = group}` under `g`. -/
def populateStep (env : Env) (caps : List CapsuleHeader)
    (acc : List CapsuleTableEntry) (g : Guid) : List CapsuleTableEntry :=
  let group := capsulesWithGuid caps g
  if group.length ≠ 0 then
    if env.allocCapsuleTableOk g then acc ++ [⟨g, group.length, group⟩]
    else acc
  else acc

/-- Embedding of `PopulateCapsuleInConfigurationTable` (source lines
264-372), returning the ordered list of configuration-table registrations it
performs.  An empty sequence or a failed cache allocation produces no
registrations; a failed `CapsuleTable` allocation for one GUID skips only
that GUID (`continue`) and later GUIDs are still registered. -/
def PopulateCapsuleInConfigurationTable (env : Env)
    (caps : List CapsuleHeader) : List CapsuleTableEntry :=
  if caps.length = 0 then []
  else if !env.allocPtrCacheOk then []
  else if !env.allocGuidCacheOk then []
  else (collectGuidCache caps).foldl (populateStep env caps) []

/-- Index of the first capsule whose GUID is `gWindowsUxCapsuleGuid`, if any
(the scan of source lines 432-442 breaks at the first match). -/
def findUxIdx : List CapsuleHeader → Option Nat
  | [] => none
  | c :: rest =>
    if c.capsuleGuid = gWindowsUxCapsuleGuid then some 0
    else (findUxIdx rest).map (fun i => i + 1)

/-- The UX-capsule scan of `ProcessTheseCapsules` (source lines 432-442): the
first capsule carrying the Windows UX GUID has `ProcessThisCapsuleImage`
invoked on it and its status set to EFI_SUCCESS regardless of the delegate's
result (which the source only logs); the scan stops at the first match.
Returns the updated status array and the indices applied here. -/
def uxScan (caps : List CapsuleHeader) (statuses : List EfiStatus) :
    List EfiStatus × List Nat :=
  match findUxIdx caps with
  | none => (statuses, [])
  | some i => (statuses.set i EfiStatus.success, [i])

/-- Accumulator of the general sweep (source lines 451-496): the status
array, `mNeedReset`, and the indices on which `ProcessThisCapsuleImage` has
been invoked, in invocation order. -/
structure SweepState where
  sts : List EfiStatus
  needReset : Bool
  applied : List Nat
deriving DecidableEq, Repr

/-- One iteration of the general sweep at index `i` (source lines 451-496):
skip entries already processed (status not EFI_NOT_READY) and entries
carrying the UX GUID; abort entries failing the `IsFmpCapsule` probe or
`ValidateFmpCapsule`; defer (leave Pending, no apply) when `FirstRound` holds
and the embedded driver count is positive; otherwise invoke the apply
delegate, record its status, and for a terminal result fold `ResetRequired`
and the `PcdSystemRebootAfterCapsuleProcessFlag` bit into `mNeedReset`. -/
def sweepStep (env : Env) (firstRound : Bool) (caps : List CapsuleHeader)
    (s : SweepState) (i : Nat) : SweepState :=
  match caps[i]?, s.sts[i]? with
  | some c, some old =>
    if old ≠ EfiStatus.notReady then s
    else if c.capsuleGuid = gWindowsUxCapsuleGuid then s
    else if env.IsFmpCapsule c then
      match env.ValidateFmpCapsule c with
      | none => { s with sts := s.sts.set i EfiStatus.aborted }
      | some driverCount =>
        if (!firstRound) || driverCount == 0 then
          let r := env.ProcessThisCapsuleImage c
          let s1 : SweepState :=
            { sts := s.sts.set i r.1
              needReset := s.needReset
              applied := s.applied ++ [i] }
          if r.1 ≠ EfiStatus.notReady then
            { s1 with needReset :=
                (s1.needReset || r.2) || (c.flags &&& env.rebootFlagMask != 0) }
          else s1
        else s
    else { s with sts := s.sts.set i EfiStatus.aborted }
  | _, _ => s

/-- The general sweep over a list of indices. -/
def sweepFrom (env : Env) (firstRound : Bool) (caps : List CapsuleHeader) :
    List Nat → SweepState → SweepState
  | [], s => s
  | i :: rest, s =>
    sweepFrom env firstRound caps rest (sweepStep env firstRound caps s i)

/-- The general sweep of `ProcessTheseCapsules` (source lines 451-496), run
over indices `0 .. caps.length - 1` in order. -/
def sweep (env : Env) (firstRound : Bool) (caps : List CapsuleHeader)
    (statuses : List EfiStatus) (needReset : Bool) : SweepState :=
  sweepFrom env firstRound caps (List.range caps.length)
    ⟨statuses, needReset, []⟩

/-- The state `ProcessTheseCapsules` actually operates on: when `FirstRound`
holds, `InitCapsulePtr` rebuilds the sequence and status array (leaving
`mNeedReset` untouched); otherwise the incoming state is used as is. -/
def effectiveStart (env : Env) (firstRound : Bool) (hobs : List Hob)
    (st : CapsuleState) : CapsuleState :=
  if firstRound then
    let d := InitCapsulePtr env hobs
    ⟨d.1, d.2, st.needReset⟩
  else st

/-- Result of one `ProcessTheseCapsules` pass: the final global state, the
returned EFI_STATUS, the ordered indices on which `ProcessThisCapsuleImage`
was invoked (UX scan first, then the sweep), and the configuration-table
registrations performed. -/
structure PassResult where
  state : CapsuleState
  ret : EfiStatus
  applied : List Nat
  registered : List CapsuleTableEntry
deriving DecidableEq, Repr

/-- Embedding of `ProcessTheseCapsules` (source lines 389-510).  On the first
round `InitCapsulePtr` runs; an empty sequence or an already fully processed
status array short-circuits with EFI_SUCCESS; on the first round the
configuration table is populated; then the UX scan and the general sweep run.
The ESRT sync is best effort and `Status` is overwritten with EFI_SUCCESS
before returning (source line 505), so the pass always returns EFI_SUCCESS. -/
def ProcessTheseCapsules (env : Env) (firstRound : Bool) (hobs : List Hob)
    (st : CapsuleState) : PassResult :=
  let s := effectiveStart env firstRound hobs st
  if s.capsules.length = 0 then ⟨s, EfiStatus.success, [], []⟩
  else if AreAllImagesProcessed s.statuses then ⟨s, EfiStatus.success, [], []⟩
  else
    let registered :=
      if firstRound then PopulateCapsuleInConfigurationTable env s.capsules
      else []
    let ux := uxScan s.capsules s.statuses
    let sw := sweep env firstRound s.capsules ux.1 s.needReset
    ⟨⟨s.capsules, sw.sts, sw.needReset⟩, EfiStatus.success,
      ux.2 ++ sw.applied, registered⟩

/-- The reset types of `gRT->ResetSystem` / `ResetSystemWithSubtype`. -/
inductive ResetType where
  | cold
  | warm
  | shutdown
deriving DecidableEq, Repr

/-- A platform reset request: the reset type and the subtype GUID passed to
`ResetSystemWithSubtype`. -/
structure ResetRequest where
  resetType : ResetType
  subtype : Guid
deriving DecidableEq, Repr

/-- Embedding of `DoResetSystem` (source lines 515-530): a cold reset tagged
with `gCapsuleUpdateCompleteResetGuid`.  The call never returns
(`CpuDeadLoop`); divergence is modelled by `BootOutcome.halted`. -/
def DoResetSystem : ResetRequest := ⟨ResetType.cold, gCapsuleUpdateCompleteResetGuid⟩

/-- Terminal observation of `ProcessCapsules`: either the platform halted in
`DoResetSystem` (which never returns), or the routine returned a status to
its caller. -/
inductive BootOutcome where
  | halted (request : ResetRequest)
  | returned (status : EfiStatus)
deriving DecidableEq, Repr

/-- Result of `ProcessCapsules`: its outcome, the `FirstRound` arguments of
the `ProcessTheseCapsules` passes it ran, in order, and the details of the
single pass. -/
structure ProcessCapsulesResult where
  outcome : BootOutcome
  passes : List Bool
  pass : PassResult
deriving DecidableEq, Repr

/-- Embedding of `ProcessCapsules` (source lines 562-598) as currently built
(the two-round body is commented out in the source): run exactly one
`ProcessTheseCapsules (TRUE)` pass, then call `DoResetSystem` (never
returning) iff `mNeedReset` is set, else return the pass's status. -/
def ProcessCapsules (env : Env) (hobs : List Hob) (st : CapsuleState) :
    ProcessCapsulesResult :=
  let pr := ProcessTheseCapsules env true hobs st
  if pr.state.needReset then ⟨BootOutcome.halted DoResetSystem, [true], pr⟩
  else ⟨BootOutcome.returned pr.ret, [true], pr⟩

/-- What one sweep iteration does to the status of a capsule `c` whose status
was `old` when the sweep visited it, as a plain function (proved below to
characterize `sweepStep`). -/
def capsuleOutcome (env : Env) (firstRound : Bool) (c : CapsuleHeader)
    (old : EfiStatus) : EfiStatus :=
  if old ≠ EfiStatus.notReady then old
  else if c.capsuleGuid = gWindowsUxCapsuleGuid then old
  else if env.IsFmpCapsule c then
    match env.ValidateFmpCapsule c with
    | none => EfiStatus.aborted
    | some driverCount =>
      if (!firstRound) || driverCount == 0 then
        (env.ProcessThisCapsuleImage c).1
      else old
  else EfiStatus.aborted

/-- Whether one sweep iteration invokes `ProcessThisCapsuleImage` on a
capsule `c` whose status was `old` when the sweep visited it. -/
def capsuleAppliedHere (env : Env) (firstRound : Bool) (c : CapsuleHeader)
    (old : EfiStatus) : Bool :=
  old == EfiStatus.notReady
    && !(c.capsuleGuid == gWindowsUxCapsuleGuid)
    && env.IsFmpCapsule c
    && (match env.ValidateFmpCapsule c with
        | none => false
        | some driverCount => (!firstRound) || driverCount == 0)

/-- Contribution of one sweep iteration to `mNeedReset`: the iteration
applies the capsule, the apply result is terminal, and either the delegate
requested a reset or the capsule carries the
`PcdSystemRebootAfterCapsuleProcessFlag` bit. -/
def capsuleResetContrib (env : Env) (firstRound : Bool) (c : CapsuleHeader)
    (old : EfiStatus) : Bool :=
  capsuleAppliedHere env firstRound c old
    && (env.ProcessThisCapsuleImage c).1 != EfiStatus.notReady
    && ((env.ProcessThisCapsuleImage c).2
        || (c.flags &&& env.rebootFlagMask != 0))

/-- `capsuleOutcome` lifted to an index of the capsule/status arrays. -/
def outcomeAt (env : Env) (firstRound : Bool) (caps : List CapsuleHeader)
    (sts : List EfiStatus) (i : Nat) : Option EfiStatus :=
  match caps[i]?, sts[i]? with
  | some c, some old => some (capsuleOutcome env firstRound c old)
  | _, _ => sts[i]?

/-- `capsuleAppliedHere` lifted to an index of the capsule/status arrays. -/
def appliedAt (env : Env) (firstRound : Bool) (caps : List CapsuleHeader)
    (sts : List EfiStatus) (i : Nat) : Bool :=
  match caps[i]?, sts[i]? with
  | some c, some old => capsuleAppliedHere env firstRound c old
  | _, _ => false

/-- `capsuleResetContrib` lifted to an index of the capsule/status arrays. -/
def resetAt (env : Env) (firstRound : Bool) (caps : List CapsuleHeader)
    (sts : List EfiStatus) (i : Nat) : Bool :=
  match caps[i]?, sts[i]? with
  | some c, some old => capsuleResetContrib env firstRound c old
  | _, _ => false

/-- Disjunction of the reset contributions of all capsules of a state,
evaluated at their statuses at the start of the pass. -/
def passResetOr (env : Env) (firstRound : Bool) (s : CapsuleState) : Bool :=
  (List.range s.capsules.length).any
    (fun i => resetAt env firstRound s.capsules s.statuses i)

/-- Reset hint of one capsule as claim C2 counts it: the capsule is applied
with a terminal outcome and the delegate's `ResetRequired` output is set
(the `AlwaysReset` flag is counted separately by the claim). -/
def hintAt (env : Env) (firstRound : Bool) (caps : List CapsuleHeader)
    (sts : List EfiStatus) (i : Nat) : Bool :=
  match caps[i]?, sts[i]? with
  | some c, some old =>
    capsuleAppliedHere env firstRound c old
      && (env.ProcessThisCapsuleImage c).1 != EfiStatus.notReady
      && (env.ProcessThisCapsuleImage c).2
  | _, _ => false

/-- Formalization of claim C2's description of the final reset flag,
following the claim's words: the value at the start of the pass, OR-ed with
the reset hints returned by the apply delegate for terminal outcomes, OR-ed
with the `AlwaysReset` flag of every `AlwaysReset`-flagged capsule across the
pass. -/
def c2ClaimedReset (env : Env) (firstRound : Bool) (s : CapsuleState) : Bool :=
  s.needReset
    || (List.range s.capsules.length).any
        (fun i => hintAt env firstRound s.capsules s.statuses i)
    || s.capsules.any (fun c => c.flags &&& env.rebootFlagMask != 0)

/-- Global states reachable by the library within one boot attempt: the state
after a first `ProcessTheseCapsules (TRUE)` call (which rebuilds the arrays
from the HOB list, whatever the prior state), followed by any number of
further passes. -/
inductive Reachable (env : Env) (hobs : List Hob) : CapsuleState → Prop where
  | first (st0 : CapsuleState) :
      Reachable env hobs (ProcessTheseCapsules env true hobs st0).state
  | next (st : CapsuleState) (fr : Bool) :
      Reachable env hobs st →
      Reachable env hobs (ProcessTheseCapsules env fr hobs st).state

/-- Structural invariant of reachable states: the status array matches the
capsule array in length, and the first UX-GUID capsule (the only one the UX
scan ever writes) is either still Pending or already EFI_SUCCESS. -/
def uxInvariant (st : CapsuleState) : Prop :=
  st.statuses.length = st.capsules.length ∧
    ∀ i, findUxIdx st.capsules = some i →
      st.statuses[i]? = some EfiStatus.notReady ∨
        st.statuses[i]? = some EfiStatus.success

/-- A fully permissive concrete environment used by counterexamples and
witnesses: every delegate succeeds, every allocation succeeds. -/
def baseEnv : Env where
  IsValidCapsuleHeader := fun _ _ => true
  IsFmpCapsule := fun _ => true
  ValidateFmpCapsule := fun _ => some 0
  ProcessThisCapsuleImage := fun _ => (EfiStatus.success, false)
  rebootFlagMask := 2
  allocCapsulePtrOk := true
  allocStatusArrayOk := true
  allocPtrCacheOk := true
  allocGuidCacheOk := true
  allocCapsuleTableOk := fun _ => true
  fmpProgress := none
  DisplayUpdateProgress := fun _ _ => EfiStatus.success
  pcdCapsuleUpdateWatchdogSeconds := 30

/-- A concrete capsule carrying the Windows UX GUID. -/
def uxCapsule : CapsuleHeader := ⟨gWindowsUxCapsuleGuid, 0⟩

/-- A concrete non-UX capsule with no flags. -/
def plainCapsule : CapsuleHeader := ⟨⟨100⟩, 0⟩

/-- A concrete non-UX capsule carrying the
`PcdSystemRebootAfterCapsuleProcessFlag` bit of `baseEnv` (mask 2). -/
def alwaysResetCapsule : CapsuleHeader := ⟨⟨101⟩, 2⟩

/-- A concrete non-UX FMP capsule used where embedded drivers matter. -/
def driverCapsule : CapsuleHeader := ⟨⟨102⟩, 0⟩

/-- One sweep iteration at index `i` is fully described by the
characterization functions: it rewrites status `i` to `capsuleOutcome`,
leaves every other status alone, appends `i` to the applied list iff
`capsuleAppliedHere` holds, and ORs `capsuleResetContrib` into the reset
flag. -/
theorem sweepStep_spec (env : Env) (fr : Bool) (caps : List CapsuleHeader)
    (s : SweepState) (i : Nat) :
    (sweepStep env fr caps s i).sts[i]? = outcomeAt env fr caps s.sts i
    ∧ (∀ j, j ≠ i → (sweepStep env fr caps s i).sts[j]? = s.sts[j]?)
    ∧ (sweepStep env fr caps s i).applied
        = s.applied ++ (if appliedAt env fr caps s.sts i = true then [i] else [])
    ∧ (sweepStep env fr caps s i).needReset
        = (s.needReset || resetAt env fr caps s.sts i) := by
  cases hc : caps[i]? with
  | none =>
    simp [sweepStep, outcomeAt, appliedAt, resetAt, hc]
  | some c =>
    cases hs : s.sts[i]? with
    | none =>
      simp [sweepStep, outcomeAt, appliedAt, resetAt, hc, hs]
    | some old =>
      have hi : i < s.sts.length := by
        rcases List.getElem?_eq_some.mp hs with ⟨h, _⟩
        exact h
      by_cases h1 : old = EfiStatus.notReady
      · subst h1
        by_cases h2 : c.capsuleGuid = gWindowsUxCapsuleGuid
        · simp [sweepStep, outcomeAt, appliedAt, resetAt, capsuleOutcome,
            capsuleAppliedHere, capsuleResetContrib, beq_iff_eq, hc, hs, h2]
        · by_cases h3 : env.IsFmpCapsule c
          · cases hv : env.ValidateFmpCapsule c with
            | none =>
              constructor
              · simp [sweepStep, outcomeAt, capsuleOutcome, hc, hs, h2, h3,
                  hv, List.getElem?_set_self hi]
              constructor
              · intro j hj
                simp [sweepStep, hc, hs, h2, h3, hv,
                  List.getElem?_set_ne (Ne.symm hj)]
              · simp [sweepStep, appliedAt, resetAt, capsuleAppliedHere,
                  capsuleResetContrib, beq_iff_eq, hc, hs, h2, h3, hv]
            | some dc =>
              by_cases h4 : (!fr || dc == 0) = true
              · by_cases h5 : (env.ProcessThisCapsuleImage c).1 = EfiStatus.notReady
                · constructor
                  · simp [sweepStep, outcomeAt, capsuleOutcome, hc, hs, h2,
                      h3, hv, h4, h5, List.getElem?_set_self hi]
                  constructor
                  · intro j hj
                    simp [sweepStep, hc, hs, h2, h3, hv, h4, h5,
                      List.getElem?_set_ne (Ne.symm hj)]
                  · simp [sweepStep, appliedAt, resetAt, capsuleAppliedHere,
                      capsuleResetContrib, beq_iff_eq, hc, hs, h2, h3, hv, h4, h5]
                · have hg : (c.capsuleGuid == gWindowsUxCapsuleGuid) = false :=
                    beq_eq_false_iff_ne.mpr h2
                  have ht : ((env.ProcessThisCapsuleImage c).1 != EfiStatus.notReady) = true := by
                    simp [bne_iff_ne, h5]
                  constructor
                  · simp [sweepStep, outcomeAt, capsuleOutcome, hc, hs, h2,
                      h3, hv, h4, h5, List.getElem?_set_self hi]
                  constructor
                  · intro j hj
                    simp [sweepStep, hc, hs, h2, h3, hv, h4, h5,
                      List.getElem?_set_ne (Ne.symm hj)]
                  · simp [sweepStep, appliedAt, resetAt, capsuleAppliedHere,
                      capsuleResetContrib, hc, hs, hg, ht, h2, h3, hv, h4, h5,
                      Bool.or_assoc]
              · simp [sweepStep, outcomeAt, appliedAt, resetAt,
                  capsuleOutcome, capsuleAppliedHere, capsuleResetContrib,
                  beq_iff_eq, hc, hs, h2, h3, hv, h4]
          · constructor
            · simp [sweepStep, outcomeAt, capsuleOutcome, hc, hs, h2, h3,
                List.getElem?_set_self hi]
            constructor
            · intro j hj
              simp [sweepStep, hc, hs, h2, h3,
                List.getElem?_set_ne (Ne.symm hj)]
            · simp [sweepStep, appliedAt, resetAt, capsuleAppliedHere,
                capsuleResetContrib, beq_iff_eq, hc, hs, h2, h3]
      · simp [sweepStep, outcomeAt, appliedAt, resetAt, capsuleOutcome,
          capsuleAppliedHere, capsuleResetContrib, beq_iff_eq, hc, hs, h1]

/-- `outcomeAt` only reads the status array at its own index. -/
theorem outcomeAt_congr (env : Env) (fr : Bool) (caps : List CapsuleHeader)
    (sts1 sts2 : List EfiStatus) (j : Nat) (h : sts1[j]? = sts2[j]?) :
    outcomeAt env fr caps sts1 j = outcomeAt env fr caps sts2 j := by
  unfold outcomeAt
  rw [h]

/-- `appliedAt` only reads the status array at its own index. -/
theorem appliedAt_congr (env : Env) (fr : Bool) (caps : List CapsuleHeader)
    (sts1 sts2 : List EfiStatus) (j : Nat) (h : sts1[j]? = sts2[j]?) :
    appliedAt env fr caps sts1 j = appliedAt env fr caps sts2 j := by
  unfold appliedAt
  rw [h]

/-- `resetAt` only reads the status array at its own index. -/
theorem resetAt_congr (env : Env) (fr : Bool) (caps : List CapsuleHeader)
    (sts1 sts2 : List EfiStatus) (j : Nat) (h : sts1[j]? = sts2[j]?) :
    resetAt env fr caps sts1 j = resetAt env fr caps sts2 j := by
  unfold resetAt
  rw [h]

/-- Congruence for `List.any` under a pointwise-equal predicate. -/
theorem listAnyCongr {α : Type} (l : List α) (f g : α → Bool)
    (h : ∀ a ∈ l, f a = g a) : l.any f = l.any g := by
  induction l with
  | nil => rfl
  | cons x xs ih =>
    simp only [List.any_cons]
    rw [h x (by simp), ih (fun a ha => h a (by simp [ha]))]

/-- One sweep iteration does not change the length of the status array. -/
theorem sweepStep_length (env : Env) (fr : Bool) (caps : List CapsuleHeader)
    (s : SweepState) (i : Nat) :
    (sweepStep env fr caps s i).sts.length = s.sts.length := by
  unfold sweepStep
  repeat' split
  all_goals simp [apply_ite (fun t : SweepState => t.sts.length), List.length_set]

/-- The sweep does not change the length of the status array. -/
theorem sweepFrom_length (env : Env) (fr : Bool) (caps : List CapsuleHeader) :
    ∀ (l : List Nat) (s : SweepState),
      (sweepFrom env fr caps l s).sts.length = s.sts.length := by
  intro l
  induction l with
  | nil => intro s; rfl
  | cons i rest ih =>
    intro s
    rw [sweepFrom, ih, sweepStep_length]

/-- Status characterization of the sweep over a duplicate-free index list:
an index visited by the sweep ends at its `capsuleOutcome`, every other index
is untouched. -/
theorem sweepFrom_sts (env : Env) (fr : Bool) (caps : List CapsuleHeader) :
    ∀ (l : List Nat), l.Nodup → ∀ (s : SweepState) (j : Nat),
      (sweepFrom env fr caps l s).sts[j]? =
        if j ∈ l then outcomeAt env fr caps s.sts j else s.sts[j]? := by
  intro l
  induction l with
  | nil => intro _ s j; simp [sweepFrom]
  | cons i rest ih =>
    intro hnd s j
    rcases List.nodup_cons.mp hnd with ⟨hi, hrest⟩
    have hspec := sweepStep_spec env fr caps s i
    rw [sweepFrom, ih hrest]
    by_cases hji : j = i
    · subst hji
      simp only [hi, if_false, List.mem_cons, true_or, if_true]
      rw [hspec.1]
    · by_cases hjr : j ∈ rest
      · have hmem : j ∈ i :: rest := by simp [hjr]
        simp only [hjr, if_true, hmem, if_true]
        exact outcomeAt_congr env fr caps _ _ j (hspec.2.1 j hji)
      · have hmem : j ∉ i :: rest := by simp [hji, hjr]
        simp only [hjr, if_false, hmem, if_false]
        exact hspec.2.1 j hji

/-- Applied-list characterization of the sweep over a duplicate-free index
list: the sweep appends exactly the visited indices satisfying `appliedAt`
(evaluated at the statuses the sweep started from), in visiting order. -/
theorem sweepFrom_applied (env : Env) (fr : Bool) (caps : List CapsuleHeader) :
    ∀ (l : List Nat), l.Nodup → ∀ (s : SweepState),
      (sweepFrom env fr caps l s).applied =
        s.applied ++ l.filter (fun i => appliedAt env fr caps s.sts i) := by
  intro l
  induction l with
  | nil => intro _ s; simp [sweepFrom]
  | cons i rest ih =>
    intro hnd s
    rcases List.nodup_cons.mp hnd with ⟨hi, hrest⟩
    have hspec := sweepStep_spec env fr caps s i
    rw [sweepFrom, ih hrest]
    have hfilter :
        rest.filter (fun j => appliedAt env fr caps (sweepStep env fr caps s i).sts j)
          = rest.filter (fun j => appliedAt env fr caps s.sts j) := by
      apply List.filter_congr
      intro j hj
      have hji : j ≠ i := fun h => hi (h ▸ hj)
      exact appliedAt_congr env fr caps _ _ j (hspec.2.1 j hji)
    rw [hfilter, hspec.2.2.1, List.filter_cons]
    by_cases hap : appliedAt env fr caps s.sts i = true
    · simp [hap, List.append_assoc]
    · simp [hap]

/-- Reset-flag characterization of the sweep over a duplicate-free index
list: the final flag is the initial flag OR-ed with the `resetAt`
contribution of every visited index (evaluated at the statuses the sweep
started from). -/
theorem sweepFrom_needReset (env : Env) (fr : Bool) (caps : List CapsuleHeader) :
    ∀ (l : List Nat), l.Nodup → ∀ (s : SweepState),
      (sweepFrom env fr caps l s).needReset =
        (s.needReset || l.any (fun i => resetAt env fr caps s.sts i)) := by
  intro l
  induction l with
  | nil => intro _ s; simp [sweepFrom]
  | cons i rest ih =>
    intro hnd s
    rcases List.nodup_cons.mp hnd with ⟨hi, hrest⟩
    have hspec := sweepStep_spec env fr caps s i
    rw [sweepFrom, ih hrest]
    have hany :
        rest.any (fun j => resetAt env fr caps (sweepStep env fr caps s i).sts j)
          = rest.any (fun j => resetAt env fr caps s.sts j) := by
      apply listAnyCongr
      intro j hj
      have hji : j ≠ i := fun h => hi (h ▸ hj)
      exact resetAt_congr env fr caps _ _ j (hspec.2.1 j hji)
    rw [hany, hspec.2.2.2, List.any_cons, Bool.or_assoc]

/-- A found UX index points at a capsule carrying the UX GUID. -/
theorem findUxIdx_spec :
    ∀ (caps : List CapsuleHeader) (u : Nat), findUxIdx caps = some u →
      ∃ c, caps[u]? = some c ∧ c.capsuleGuid = gWindowsUxCapsuleGuid := by
  intro caps
  induction caps with
  | nil => intro u h; simp [findUxIdx] at h
  | cons c rest ih =>
    intro u h
    by_cases hg : c.capsuleGuid = gWindowsUxCapsuleGuid
    · simp only [findUxIdx, hg, if_true, Option.some.injEq] at h
      subst h
      exact ⟨c, by simp, hg⟩
    · simp only [findUxIdx, hg, if_false, Option.map_eq_some'] at h
      rcases h with ⟨v, hv, rfl⟩
      rcases ih v hv with ⟨d, hd, hgd⟩
      exact ⟨d, by simpa using hd, hgd⟩

/-- The found UX index is inside the sequence. -/
theorem findUxIdx_lt (caps : List CapsuleHeader) (u : Nat)
    (h : findUxIdx caps = some u) : u < caps.length := by
  rcases findUxIdx_spec caps u h with ⟨c, hc, _⟩
  rcases List.getElem?_eq_some.mp hc with ⟨hlt, _⟩
  exact hlt

/-- Any capsule carrying the UX GUID is at or after the found UX index: the
scan reports the first match. -/
theorem findUxIdx_le :
    ∀ (caps : List CapsuleHeader) (i : Nat) (c : CapsuleHeader),
      caps[i]? = some c → c.capsuleGuid = gWindowsUxCapsuleGuid →
      ∃ u, findUxIdx caps = some u ∧ u ≤ i := by
  intro caps
  induction caps with
  | nil => intro i c h _; simp at h
  | cons d rest ih =>
    intro i c hc hg
    by_cases hd : d.capsuleGuid = gWindowsUxCapsuleGuid
    · exact ⟨0, by simp [findUxIdx, hd], Nat.zero_le i⟩
    · cases i with
      | zero =>
        simp only [List.getElem?_cons_zero, Option.some.injEq] at hc
        exact absurd (hc ▸ hg) hd
      | succ j =>
        simp only [List.getElem?_cons_succ] at hc
        rcases ih j c hc hg with ⟨u, hu, hle⟩
        exact ⟨u + 1, by simp [findUxIdx, hd, hu], Nat.succ_le_succ hle⟩

/-- Capsules strictly before the found UX index do not carry the UX GUID. -/
theorem findUxIdx_first (caps : List CapsuleHeader) (u : Nat)
    (h : findUxIdx caps = some u) :
    ∀ j c, j < u → caps[j]? = some c →
      c.capsuleGuid ≠ gWindowsUxCapsuleGuid := by
  intro j c hj hc hg
  rcases findUxIdx_le caps j c hc hg with ⟨v, hv, hle⟩
  rw [h] at hv
  cases hv
  exact absurd hj (Nat.not_lt.mpr hle)

/-- A pass over an empty sequence short-circuits: state unchanged,
EFI_SUCCESS, no apply-delegate call, no registration. -/
theorem ProcessTheseCapsules_empty (env : Env) (fr : Bool) (hobs : List Hob)
    (st : CapsuleState)
    (h0 : (effectiveStart env fr hobs st).capsules.length = 0) :
    ProcessTheseCapsules env fr hobs st =
      ⟨effectiveStart env fr hobs st, EfiStatus.success, [], []⟩ := by
  unfold ProcessTheseCapsules
  simp [h0]

/-- A pass whose status array is already fully processed short-circuits:
state unchanged, EFI_SUCCESS, no apply-delegate call, no registration. -/
theorem ProcessTheseCapsules_done (env : Env) (fr : Bool) (hobs : List Hob)
    (st : CapsuleState)
    (h1 : AreAllImagesProcessed (effectiveStart env fr hobs st).statuses = true) :
    ProcessTheseCapsules env fr hobs st =
      ⟨effectiveStart env fr hobs st, EfiStatus.success, [], []⟩ := by
  unfold ProcessTheseCapsules
  by_cases h0 : (effectiveStart env fr hobs st).capsules.length = 0
  · simp [h0]
  · simp [h0, h1]

/-- The main branch of a pass: populate (first round only), UX scan, then
the general sweep. -/
theorem ProcessTheseCapsules_run (env : Env) (fr : Bool) (hobs : List Hob)
    (st : CapsuleState)
    (h0 : ¬ (effectiveStart env fr hobs st).capsules.length = 0)
    (h1 : AreAllImagesProcessed (effectiveStart env fr hobs st).statuses
            = false) :
    ProcessTheseCapsules env fr hobs st =
      ⟨⟨(effectiveStart env fr hobs st).capsules,
        (sweep env fr (effectiveStart env fr hobs st).capsules
          (uxScan (effectiveStart env fr hobs st).capsules
            (effectiveStart env fr hobs st).statuses).1
          (effectiveStart env fr hobs st).needReset).sts,
        (sweep env fr (effectiveStart env fr hobs st).capsules
          (uxScan (effectiveStart env fr hobs st).capsules
            (effectiveStart env fr hobs st).statuses).1
          (effectiveStart env fr hobs st).needReset).needReset⟩,
       EfiStatus.success,
       (uxScan (effectiveStart env fr hobs st).capsules
          (effectiveStart env fr hobs st).statuses).2 ++
         (sweep env fr (effectiveStart env fr hobs st).capsules
            (uxScan (effectiveStart env fr hobs st).capsules
              (effectiveStart env fr hobs st).statuses).1
            (effectiveStart env fr hobs st).needReset).applied,
       if fr then
         PopulateCapsuleInConfigurationTable env
           (effectiveStart env fr hobs st).capsules
       else []⟩ := by
  unfold ProcessTheseCapsules
  simp [h0, h1]

/-- A pass never changes the capsule sequence it operates on. -/
theorem ProcessTheseCapsules_capsules (env : Env) (fr : Bool)
    (hobs : List Hob) (st : CapsuleState) :
    (ProcessTheseCapsules env fr hobs st).state.capsules
      = (effectiveStart env fr hobs st).capsules := by
  by_cases h0 : (effectiveStart env fr hobs st).capsules.length = 0
  · rw [ProcessTheseCapsules_empty env fr hobs st h0]
  · by_cases h1 : AreAllImagesProcessed (effectiveStart env fr hobs st).statuses
      = true
    · rw [ProcessTheseCapsules_done env fr hobs st h1]
    · rw [ProcessTheseCapsules_run env fr hobs st h0
        (Bool.eq_false_iff.mpr h1)]

/-- A status array containing a Pending entry is not fully processed. -/
theorem allProcessed_false (sts : List EfiStatus) (i : Nat)
    (h : sts[i]? = some EfiStatus.notReady) :
    AreAllImagesProcessed sts = false := by
  apply Bool.eq_false_iff.mpr
  intro hall
  rcases List.getElem?_eq_some.mp h with ⟨hlt, hEq⟩
  have hmem : EfiStatus.notReady ∈ sts := hEq ▸ List.getElem_mem hlt
  have := List.all_eq_true.mp hall _ hmem
  simp at this

/-- The UX scan does not change the reset contribution of any index: the
first UX capsule contributes nothing either way (its GUID is the UX GUID),
and no other status changes. -/
theorem resetAt_uxScan (env : Env) (fr : Bool) (caps : List CapsuleHeader)
    (sts : List EfiStatus) (i : Nat) :
    resetAt env fr caps (uxScan caps sts).1 i = resetAt env fr caps sts i := by
  cases hfu : findUxIdx caps with
  | none => simp [uxScan, hfu]
  | some u =>
    simp only [uxScan, hfu]
    by_cases hiu : i = u
    · subst hiu
      rcases findUxIdx_spec caps i hfu with ⟨c, hc, hg⟩
      have hg' : (c.capsuleGuid == gWindowsUxCapsuleGuid) = true :=
        beq_iff_eq.mpr hg
      unfold resetAt
      rw [hc, List.getElem?_set]
      simp only [if_pos rfl]
      by_cases hlen : i < sts.length
      · simp only [hlen, if_true]
        cases hs : sts[i]? with
        | none => simp [capsuleResetContrib, capsuleAppliedHere, hg']
        | some old => simp [capsuleResetContrib, capsuleAppliedHere, hg']
      · simp only [hlen, if_false]
        rw [List.getElem?_eq_none (Nat.le_of_not_lt hlen)]
        simp
    · exact resetAt_congr env fr caps _ _ i
        (List.getElem?_set_ne (Ne.symm hiu))

/-- A fully processed status array contributes nothing to the reset flag. -/
theorem passResetOr_allProcessed (env : Env) (fr : Bool) (s : CapsuleState)
    (h : AreAllImagesProcessed s.statuses = true) :
    passResetOr env fr s = false := by
  apply Bool.eq_false_iff.mpr
  intro hany
  unfold passResetOr at hany
  rcases List.any_eq_true.mp hany with ⟨i, _, hres⟩
  unfold resetAt at hres
  cases hcc : s.capsules[i]? with
  | none => rw [hcc] at hres; simp at hres
  | some c =>
    cases hss : s.statuses[i]? with
    | none => rw [hcc, hss] at hres; simp at hres
    | some old =>
      rw [hcc, hss] at hres
      simp only [capsuleResetContrib, capsuleAppliedHere,
        Bool.and_eq_true, beq_iff_eq] at hres
      have hpend : old = EfiStatus.notReady := hres.1.1.1.1.1
      rcases List.getElem?_eq_some.mp hss with ⟨hlt, hEq⟩
      have hmem : old ∈ s.statuses := hEq ▸ List.getElem_mem hlt
      have := List.all_eq_true.mp h _ hmem
      rw [hpend] at this
      simp at this

/-- Reset-flag equation of a full pass: the final `mNeedReset` is the value
at the start of the pass OR-ed with the `resetAt` contribution of every
capsule, evaluated at their start-of-pass statuses. -/
theorem ProcessTheseCapsules_needReset (env : Env) (fr : Bool)
    (hobs : List Hob) (st : CapsuleState) :
    (ProcessTheseCapsules env fr hobs st).state.needReset
      = ((effectiveStart env fr hobs st).needReset
          || passResetOr env fr (effectiveStart env fr hobs st)) := by
  by_cases h0 : (effectiveStart env fr hobs st).capsules.length = 0
  · rw [ProcessTheseCapsules_empty env fr hobs st h0]
    have hz : passResetOr env fr (effectiveStart env fr hobs st) = false := by
      unfold passResetOr
      rw [h0]
      rfl
    rw [hz, Bool.or_false]
  · by_cases h1 : AreAllImagesProcessed (effectiveStart env fr hobs st).statuses
      = true
    · rw [ProcessTheseCapsules_done env fr hobs st h1,
        passResetOr_allProcessed env fr _ h1, Bool.or_false]
    · rw [ProcessTheseCapsules_run env fr hobs st h0
        (Bool.eq_false_iff.mpr h1)]
      dsimp only
      rw [sweep, sweepFrom_needReset env fr _ _ (List.nodup_range _)]
      dsimp only
      congr 1
      unfold passResetOr
      apply listAnyCongr
      intro i _
      exact resetAt_uxScan env fr _ _ i

/-- Per-index behaviour of a pass at a Pending, non-UX capsule: its final
status is `capsuleOutcome`, and the apply delegate runs on it exactly when
`capsuleAppliedHere` holds. -/
theorem ProcessTheseCapsules_at_nonux (env : Env) (fr : Bool)
    (hobs : List Hob) (st : CapsuleState) (i : Nat) (c : CapsuleHeader)
    (hc : (effectiveStart env fr hobs st).capsules[i]? = some c)
    (hg : c.capsuleGuid ≠ gWindowsUxCapsuleGuid)
    (hp : (effectiveStart env fr hobs st).statuses[i]?
            = some EfiStatus.notReady) :
    (ProcessTheseCapsules env fr hobs st).state.statuses[i]?
        = some (capsuleOutcome env fr c EfiStatus.notReady)
    ∧ (i ∈ (ProcessTheseCapsules env fr hobs st).applied
        ↔ capsuleAppliedHere env fr c EfiStatus.notReady = true) := by
  have hlt : i < (effectiveStart env fr hobs st).capsules.length :=
    (List.getElem?_eq_some.mp hc).1
  have h0 : ¬ (effectiveStart env fr hobs st).capsules.length = 0 := by omega
  have h1 : AreAllImagesProcessed (effectiveStart env fr hobs st).statuses
      = false := allProcessed_false _ _ hp
  have hsts1 :
      (uxScan (effectiveStart env fr hobs st).capsules
        (effectiveStart env fr hobs st).statuses).1[i]?
        = some EfiStatus.notReady := by
    cases hfu : findUxIdx (effectiveStart env fr hobs st).capsules with
    | none => simpa [uxScan, hfu] using hp
    | some u =>
      have hne : u ≠ i := by
        intro h
        subst h
        rcases findUxIdx_spec _ _ hfu with ⟨d, hd, hgd⟩
        rw [hc] at hd
        cases hd
        exact hg hgd
      simpa [uxScan, hfu, List.getElem?_set_ne hne] using hp
  have happ :
      appliedAt env fr (effectiveStart env fr hobs st).capsules
        (uxScan (effectiveStart env fr hobs st).capsules
          (effectiveStart env fr hobs st).statuses).1 i
        = capsuleAppliedHere env fr c EfiStatus.notReady := by
    unfold appliedAt
    rw [hc, hsts1]
  have hux2 : i ∉ (uxScan (effectiveStart env fr hobs st).capsules
      (effectiveStart env fr hobs st).statuses).2 := by
    cases hfu : findUxIdx (effectiveStart env fr hobs st).capsules with
    | none => simp [uxScan, hfu]
    | some u =>
      simp only [uxScan, hfu, List.mem_singleton]
      intro hmem
      subst hmem
      rcases findUxIdx_spec _ _ hfu with ⟨d, hd, hgd⟩
      rw [hc] at hd
      cases hd
      exact hg hgd
  constructor
  · rw [ProcessTheseCapsules_run env fr hobs st h0 h1]
    dsimp only
    rw [sweep, sweepFrom_sts env fr _ _ (List.nodup_range _)]
    simp only [List.mem_range, hlt, if_true]
    unfold outcomeAt
    rw [hc, hsts1]
  · rw [ProcessTheseCapsules_run env fr hobs st h0 h1]
    dsimp only
    rw [sweep, sweepFrom_applied env fr _ _ (List.nodup_range _)]
    dsimp only
    simp only [List.mem_append, List.nil_append, List.mem_filter,
      List.mem_range]
    constructor
    · rintro (h | ⟨_, hf⟩)
      · exact absurd h hux2
      · rwa [happ] at hf
    · intro h
      exact Or.inr ⟨hlt, happ ▸ h⟩

/-- `capsuleOutcome` leaves a UX-GUID capsule's status unchanged. -/
theorem capsuleOutcome_ux (env : Env) (fr : Bool) (c : CapsuleHeader)
    (old : EfiStatus) (hg : c.capsuleGuid = gWindowsUxCapsuleGuid) :
    capsuleOutcome env fr c old = old := by
  unfold capsuleOutcome
  by_cases h : old = EfiStatus.notReady
  · simp [h, hg]
  · simp [h]

/-- Per-index behaviour of a working pass at the first UX capsule: the apply
delegate runs on it and its final status is EFI_SUCCESS, whatever the
delegate returned. -/
theorem ProcessTheseCapsules_at_ux (env : Env) (fr : Bool) (hobs : List Hob)
    (st : CapsuleState) (u : Nat)
    (hlen : (effectiveStart env fr hobs st).statuses.length
              = (effectiveStart env fr hobs st).capsules.length)
    (hu : findUxIdx (effectiveStart env fr hobs st).capsules = some u)
    (h1 : AreAllImagesProcessed (effectiveStart env fr hobs st).statuses
            = false) :
    (ProcessTheseCapsules env fr hobs st).state.statuses[u]?
        = some EfiStatus.success
    ∧ u ∈ (ProcessTheseCapsules env fr hobs st).applied := by
  have hult : u < (effectiveStart env fr hobs st).capsules.length :=
    findUxIdx_lt _ _ hu
  have h0 : ¬ (effectiveStart env fr hobs st).capsules.length = 0 := by omega
  rcases findUxIdx_spec _ _ hu with ⟨c, hc, hgc⟩
  have hsts1 :
      (uxScan (effectiveStart env fr hobs st).capsules
        (effectiveStart env fr hobs st).statuses).1[u]?
        = some EfiStatus.success := by
    simp only [uxScan, hu]
    exact List.getElem?_set_self (by omega)
  constructor
  · rw [ProcessTheseCapsules_run env fr hobs st h0 h1]
    dsimp only
    rw [sweep, sweepFrom_sts env fr _ _ (List.nodup_range _)]
    simp only [List.mem_range, hult, if_true]
    unfold outcomeAt
    rw [hc, hsts1]
    simp [capsuleOutcome_ux env fr c EfiStatus.success hgc]
  · rw [ProcessTheseCapsules_run env fr hobs st h0 h1]
    dsimp only
    apply List.mem_append.mpr
    left
    simp [uxScan, hu]

/-- Per-index behaviour of a pass at a UX-GUID capsule other than the first
one: the apply delegate never runs on it and its status is untouched. -/
theorem ProcessTheseCapsules_ux_other (env : Env) (fr : Bool)
    (hobs : List Hob) (st : CapsuleState) (j : Nat) (c : CapsuleHeader)
    (hc : (effectiveStart env fr hobs st).capsules[j]? = some c)
    (hgc : c.capsuleGuid = gWindowsUxCapsuleGuid)
    (hj : findUxIdx (effectiveStart env fr hobs st).capsules ≠ some j) :
    j ∉ (ProcessTheseCapsules env fr hobs st).applied
    ∧ (ProcessTheseCapsules env fr hobs st).state.statuses[j]?
        = (effectiveStart env fr hobs st).statuses[j]? := by
  have hg' : (c.capsuleGuid == gWindowsUxCapsuleGuid) = true :=
    beq_iff_eq.mpr hgc
  by_cases h0 : (effectiveStart env fr hobs st).capsules.length = 0
  · rw [ProcessTheseCapsules_empty env fr hobs st h0]
    simp
  · by_cases h1 : AreAllImagesProcessed (effectiveStart env fr hobs st).statuses
      = true
    · rw [ProcessTheseCapsules_done env fr hobs st h1]
      simp
    · have h1' := Bool.eq_false_iff.mpr h1
      rcases findUxIdx_le _ j c hc hgc with ⟨u, hu, _⟩
      have hju : u ≠ j := by
        intro h
        exact hj (h ▸ hu)
      have hsts1 :
          (uxScan (effectiveStart env fr hobs st).capsules
            (effectiveStart env fr hobs st).statuses).1[j]?
            = (effectiveStart env fr hobs st).statuses[j]? := by
        simp [uxScan, hu, List.getElem?_set_ne hju]
      constructor
      · rw [ProcessTheseCapsules_run env fr hobs st h0 h1']
        dsimp only
        intro hmem
        rcases List.mem_append.mp hmem with hmem | hmem
        · simp only [uxScan, hu, List.mem_singleton] at hmem
          exact hju hmem.symm
        · rw [sweep, sweepFrom_applied env fr _ _ (List.nodup_range _)]
            at hmem
          simp only [List.nil_append] at hmem
          have hf := (List.mem_filter.mp hmem).2
          unfold appliedAt at hf
          rw [hc] at hf
          cases hs : (uxScan (effectiveStart env fr hobs st).capsules
              (effectiveStart env fr hobs st).statuses).1[j]? with
          | none => rw [hs] at hf; simp at hf
          | some old =>
            rw [hs] at hf
            simp [capsuleAppliedHere, hg'] at hf
      · rw [ProcessTheseCapsules_run env fr hobs st h0 h1']
        dsimp only
        rw [sweep, sweepFrom_sts env fr _ _ (List.nodup_range _)]
        dsimp only
        by_cases hjr : j ∈ List.range
            (effectiveStart env fr hobs st).capsules.length
        · simp only [hjr, if_true]
          unfold outcomeAt
          rw [hc]
          cases hs : (uxScan (effectiveStart env fr hobs st).capsules
              (effectiveStart env fr hobs st).statuses).1[j]? with
          | none => exact (hsts1.symm.trans hs).symm
          | some old =>
            show some (capsuleOutcome env fr c old)
              = (effectiveStart env fr hobs st).statuses[j]?
            rw [capsuleOutcome_ux env fr c old hgc]
            exact (hsts1.symm.trans hs).symm
        · simp only [hjr, if_false]
          exact hsts1

/-- A pass never changes a status entry that is already terminal, provided
the entry is only the first UX capsule's when its value is EFI_SUCCESS (the
only value the UX scan writes). -/
theorem ProcessTheseCapsules_terminal (env : Env) (fr : Bool)
    (hobs : List Hob) (st : CapsuleState) (i : Nat) (old : EfiStatus)
    (hp : (effectiveStart env fr hobs st).statuses[i]? = some old)
    (hterm : old ≠ EfiStatus.notReady)
    (hux : findUxIdx (effectiveStart env fr hobs st).capsules = some i →
            old = EfiStatus.success) :
    (ProcessTheseCapsules env fr hobs st).state.statuses[i]? = some old := by
  by_cases h0 : (effectiveStart env fr hobs st).capsules.length = 0
  · rw [ProcessTheseCapsules_empty env fr hobs st h0]
    exact hp
  · by_cases h1 : AreAllImagesProcessed (effectiveStart env fr hobs st).statuses
      = true
    · rw [ProcessTheseCapsules_done env fr hobs st h1]
      exact hp
    · have h1' := Bool.eq_false_iff.mpr h1
      have hsts1 :
          (uxScan (effectiveStart env fr hobs st).capsules
            (effectiveStart env fr hobs st).statuses).1[i]? = some old := by
        cases hfu : findUxIdx (effectiveStart env fr hobs st).capsules with
        | none => simpa [uxScan, hfu] using hp
        | some u =>
          by_cases hui : u = i
          · subst hui
            have hsucc : old = EfiStatus.success := hux hfu
            have hlt : u < (effectiveStart env fr hobs st).statuses.length :=
              (List.getElem?_eq_some.mp hp).1
            simp only [uxScan, hfu]
            rw [List.getElem?_set_self hlt, hsucc]
          · simpa [uxScan, hfu, List.getElem?_set_ne hui] using hp
      rw [ProcessTheseCapsules_run env fr hobs st h0 h1']
      dsimp only
      rw [sweep, sweepFrom_sts env fr _ _ (List.nodup_range _)]
      dsimp only
      by_cases hir : i ∈ List.range
          (effectiveStart env fr hobs st).capsules.length
      · simp only [hir, if_true]
        unfold outcomeAt
        cases hcc : (effectiveStart env fr hobs st).capsules[i]? with
        | none => exact hsts1
        | some c =>
          rw [hsts1]
          simp [capsuleOutcome, hterm]
      · simp only [hir, if_false]
        exact hsts1

/-- `InitCapsulePtr` either degrades to zero capsules or returns the valid
HOB headers with an all-Pending status array of the same length. -/
theorem InitCapsulePtr_shape (env : Env) (hobs : List Hob) :
    InitCapsulePtr env hobs = ([], []) ∨
      InitCapsulePtr env hobs =
        ((hobs.filter
            (fun h => env.IsValidCapsuleHeader h.header h.length)).map
          (fun h => h.header),
         List.replicate
           ((hobs.filter
               (fun h => env.IsValidCapsuleHeader h.header h.length)).map
             (fun h => h.header)).length EfiStatus.notReady) := by
  unfold InitCapsulePtr
  by_cases h0 : ((hobs.filter
      (fun h => env.IsValidCapsuleHeader h.header h.length)).map
      (fun h => h.header)).length = 0
  · left
    simp [h0]
  · by_cases ha : env.allocCapsulePtrOk
    · by_cases hb : env.allocStatusArrayOk
      · right
        simp [h0, ha, hb]
      · left
        simp [h0, ha, hb]
    · left
      simp [h0, ha]

/-- Discovery establishes the structural invariant: parallel lengths, and a
first UX capsule (if any) still Pending. -/
theorem effectiveStart_true_uxInvariant (env : Env) (hobs : List Hob)
    (st : CapsuleState) : uxInvariant (effectiveStart env true hobs st) := by
  have hd : effectiveStart env true hobs st =
      ⟨(InitCapsulePtr env hobs).1, (InitCapsulePtr env hobs).2,
        st.needReset⟩ := rfl
  rw [hd]
  rcases InitCapsulePtr_shape env hobs with h | h <;> rw [h]
  · constructor
    · rfl
    · intro i hi
      simp [findUxIdx] at hi
  · constructor
    · simp
    · intro i hi
      left
      have hlt := findUxIdx_lt _ _ hi
      simp only [List.getElem?_replicate]
      rw [List.length_map] at hlt
      simp [hlt]

/-- One pass preserves the structural invariant. -/
theorem ProcessTheseCapsules_uxInvariant (env : Env) (fr : Bool)
    (hobs : List Hob) (st : CapsuleState)
    (h : uxInvariant (effectiveStart env fr hobs st)) :
    uxInvariant (ProcessTheseCapsules env fr hobs st).state := by
  by_cases h0 : (effectiveStart env fr hobs st).capsules.length = 0
  · rw [ProcessTheseCapsules_empty env fr hobs st h0]
    exact h
  · by_cases h1 : AreAllImagesProcessed (effectiveStart env fr hobs st).statuses
      = true
    · rw [ProcessTheseCapsules_done env fr hobs st h1]
      exact h
    · have h1' := Bool.eq_false_iff.mpr h1
      constructor
      · rw [ProcessTheseCapsules_run env fr hobs st h0 h1']
        dsimp only
        rw [sweep, sweepFrom_length]
        dsimp only
        cases hfu : findUxIdx (effectiveStart env fr hobs st).capsules with
        | none => simpa [uxScan, hfu] using h.1
        | some u => simpa [uxScan, hfu, List.length_set] using h.1
      · intro i hi
        rw [ProcessTheseCapsules_capsules] at hi
        right
        have hult : i < (effectiveStart env fr hobs st).capsules.length :=
          findUxIdx_lt _ _ hi
        have hlen := h.1
        exact (ProcessTheseCapsules_at_ux env fr hobs st i
          (by omega) hi h1').1

/-- Every reachable state satisfies the structural invariant. -/
theorem reachable_uxInvariant (env : Env) (hobs : List Hob)
    (st : CapsuleState) (h : Reachable env hobs st) : uxInvariant st := by
  induction h with
  | first st0 =>
    exact ProcessTheseCapsules_uxInvariant env true hobs st0
      (effectiveStart_true_uxInvariant env hobs st0)
  | next st fr hr ih =>
    apply ProcessTheseCapsules_uxInvariant
    cases fr with
    | true => exact effectiveStart_true_uxInvariant env hobs st
    | false => simpa [effectiveStart] using ih

/-- `ProcessTheseCapsules` returns EFI_SUCCESS in every run: both
short-circuit branches return EFI_SUCCESS, and the main branch overwrites
`Status` with EFI_SUCCESS (source line 505) before returning. -/
theorem ProcessTheseCapsules_ret_success (env : Env) (fr : Bool)
    (hobs : List Hob) (st : CapsuleState) :
    (ProcessTheseCapsules env fr hobs st).ret = EfiStatus.success := by
  by_cases h0 : (effectiveStart env fr hobs st).capsules.length = 0
  · rw [ProcessTheseCapsules_empty env fr hobs st h0]
  · by_cases h1 : AreAllImagesProcessed (effectiveStart env fr hobs st).statuses
      = true
    · rw [ProcessTheseCapsules_done env fr hobs st h1]
    · rw [ProcessTheseCapsules_run env fr hobs st h0
        (Bool.eq_false_iff.mpr h1)]

/-- Membership in the GUID cache accumulator: a GUID is collected iff it was
already in the accumulator or some flagged capsule carries it. -/
theorem collectGuidCache_foldl_mem (g : Guid) :
    ∀ (caps : List CapsuleHeader) (acc : List Guid),
      g ∈ caps.foldl
        (fun acc c =>
          if hasPopulateFlag c then
            if acc.contains c.capsuleGuid then acc else acc ++ [c.capsuleGuid]
          else acc) acc
      ↔ g ∈ acc ∨ ∃ c ∈ caps, hasPopulateFlag c = true ∧ c.capsuleGuid = g := by
  intro caps
  induction caps with
  | nil => intro acc; simp
  | cons c rest ih =>
    intro acc
    rw [List.foldl_cons]
    by_cases hf : hasPopulateFlag c
    · by_cases hmem : acc.contains c.capsuleGuid
      · rw [if_pos hf, if_pos hmem, ih]
        constructor
        · rintro (h | h)
          · exact Or.inl h
          · exact Or.inr (by rcases h with ⟨d, hd, h1, h2⟩; exact ⟨d, by simp [hd], h1, h2⟩)
        · rintro (h | ⟨d, hd, h1, h2⟩)
          · exact Or.inl h
          · rcases List.mem_cons.mp hd with rfl | hd
            · left
              have := List.contains_iff_exists_mem_beq.mp hmem
              rcases this with ⟨x, hx, hbeq⟩
              rw [beq_iff_eq] at hbeq
              rw [← h2, hbeq]
              exact hx
            · exact Or.inr ⟨d, hd, h1, h2⟩
      · rw [if_pos hf, if_neg hmem, ih]
        constructor
        · rintro (h | h)
          · rcases List.mem_append.mp h with h | h
            · exact Or.inl h
            · rcases List.mem_singleton.mp h with rfl
              exact Or.inr ⟨c, by simp, hf, rfl⟩
          · exact Or.inr (by rcases h with ⟨d, hd, h1, h2⟩; exact ⟨d, by simp [hd], h1, h2⟩)
        · rintro (h | ⟨d, hd, h1, h2⟩)
          · exact Or.inl (List.mem_append.mpr (Or.inl h))
          · rcases List.mem_cons.mp hd with rfl | hd
            · exact Or.inl (List.mem_append.mpr (Or.inr (by simp [h2])))
            · exact Or.inr ⟨d, hd, h1, h2⟩
    · rw [if_neg hf, ih]
      constructor
      · rintro (h | ⟨d, hd, h1, h2⟩)
        · exact Or.inl h
        · exact Or.inr ⟨d, by simp [hd], h1, h2⟩
      · rintro (h | ⟨d, hd, h1, h2⟩)
        · exact Or.inl h
        · rcases List.mem_cons.mp hd with rfl | hd
          · exact absurd h1 (by simpa using hf)
          · exact Or.inr ⟨d, hd, h1, h2⟩

/-- A GUID is in the cache iff some flagged capsule carries it. -/
theorem mem_collectGuidCache (caps : List CapsuleHeader) (g : Guid) :
    g ∈ collectGuidCache caps
      ↔ ∃ c ∈ caps, hasPopulateFlag c = true ∧ c.capsuleGuid = g := by
  unfold collectGuidCache
  rw [collectGuidCache_foldl_mem]
  simp

/-- The GUID cache never records a GUID twice: first-seen order with a
linear membership check. -/
theorem collectGuidCache_foldl_nodup :
    ∀ (caps : List CapsuleHeader) (acc : List Guid), acc.Nodup →
      (caps.foldl
        (fun acc c =>
          if hasPopulateFlag c then
            if acc.contains c.capsuleGuid then acc else acc ++ [c.capsuleGuid]
          else acc) acc).Nodup := by
  intro caps
  induction caps with
  | nil => intro acc h; exact h
  | cons c rest ih =>
    intro acc h
    rw [List.foldl_cons]
    by_cases hf : hasPopulateFlag c
    · by_cases hmem : acc.contains c.capsuleGuid
      · rw [if_pos hf, if_pos hmem]
        exact ih acc h
      · rw [if_pos hf, if_neg hmem]
        apply ih
        rw [List.nodup_append]
        refine ⟨h, by simp, ?_⟩
        intro a ha hb
        have hab := List.mem_singleton.mp hb
        subst hab
        exact hmem (List.contains_iff_exists_mem_beq.mpr
          ⟨c.capsuleGuid, ha, beq_iff_eq.mpr rfl⟩)
    · rw [if_neg hf]
      exact ih acc h

/-- The GUID cache is duplicate-free. -/
theorem collectGuidCache_nodup (caps : List CapsuleHeader) :
    (collectGuidCache caps).Nodup :=
  collectGuidCache_foldl_nodup caps [] List.nodup_nil

/-- Unfolding of the registration fold: the registrations are exactly the
cached GUIDs whose group is nonempty and whose table allocation succeeds, in
cache order, each carrying its group and the group's size. -/
theorem populate_foldl (env : Env) (caps : List CapsuleHeader) :
    ∀ (gs : List Guid) (acc : List CapsuleTableEntry),
      gs.foldl (populateStep env caps) acc
        = acc ++ (gs.filter (fun g =>
            decide ((capsulesWithGuid caps g).length ≠ 0)
              && env.allocCapsuleTableOk g)).map
            (fun g => ⟨g, (capsulesWithGuid caps g).length,
              capsulesWithGuid caps g⟩) := by
  intro gs
  induction gs with
  | nil => intro acc; simp
  | cons g rest ih =>
    intro acc
    rw [List.foldl_cons, List.filter_cons]
    by_cases h1 : (capsulesWithGuid caps g).length ≠ 0
    · by_cases h2 : env.allocCapsuleTableOk g
      · rw [ih]
        simp [populateStep, h1, h2, List.append_assoc]
      · rw [ih]
        simp [populateStep, h1, h2]
    · rw [ih]
      simp [populateStep, h1]

/-- The group of a cached GUID is nonempty. -/
theorem capsulesWithGuid_ne_zero (caps : List CapsuleHeader) (g : Guid)
    (h : g ∈ collectGuidCache caps) :
    (capsulesWithGuid caps g).length ≠ 0 := by
  rcases (mem_collectGuidCache caps g).mp h with ⟨c, hc, hf, hg⟩
  have : c ∈ capsulesWithGuid caps g := by
    apply List.mem_filter.mpr
    exact ⟨hc, by simp [hf, beq_iff_eq, hg]⟩
  intro hlen
  rw [List.length_eq_zero] at hlen
  rw [hlen] at this
  simp at this

/-- CLAIM C5 - in the publishing step, when its two cache allocations
succeed, the registered configuration-table entries are exactly one per
distinct GUID among the `CAPSULE_FLAGS_POPULATE_SYSTEM_TABLE`-flagged
capsules (in first-seen order, restricted to GUIDs whose table allocation
succeeds - a failed allocation skips only that GUID); each entry is keyed by
its GUID, lists exactly the matching flagged capsules in original discovery
order, and its count field equals their number; unflagged capsules appear in
no entry. -/
theorem claim_c5_publish (env : Env) (caps : List CapsuleHeader)
    (h1 : env.allocPtrCacheOk = true) (h2 : env.allocGuidCacheOk = true) :
    (PopulateCapsuleInConfigurationTable env caps).map CapsuleTableEntry.guid
        = (collectGuidCache caps).filter env.allocCapsuleTableOk
    ∧ (collectGuidCache caps).Nodup
    ∧ (∀ g, g ∈ collectGuidCache caps
          ↔ ∃ c ∈ caps, hasPopulateFlag c = true ∧ c.capsuleGuid = g)
    ∧ ∀ e ∈ PopulateCapsuleInConfigurationTable env caps,
        e.ptrs = capsulesWithGuid caps e.guid
        ∧ e.count = e.ptrs.length
        ∧ ∀ c ∈ e.ptrs, hasPopulateFlag c = true := by
  have hpop : PopulateCapsuleInConfigurationTable env caps
      = ((collectGuidCache caps).filter (fun g =>
          decide ((capsulesWithGuid caps g).length ≠ 0)
            && env.allocCapsuleTableOk g)).map
          (fun g => ⟨g, (capsulesWithGuid caps g).length,
            capsulesWithGuid caps g⟩) := by
    unfold PopulateCapsuleInConfigurationTable
    by_cases h0 : caps.length = 0
    · rw [if_pos h0]
      have hnil : caps = [] := List.length_eq_zero.mp h0
      subst hnil
      simp [collectGuidCache]
    · rw [if_neg h0]
      simp only [h1, h2, Bool.not_true, Bool.false_eq_true, if_false]
      rw [populate_foldl env caps _ []]
      simp
  have hfilter : (collectGuidCache caps).filter (fun g =>
        decide ((capsulesWithGuid caps g).length ≠ 0)
          && env.allocCapsuleTableOk g)
      = (collectGuidCache caps).filter env.allocCapsuleTableOk := by
    apply List.filter_congr
    intro g hg
    have hne := capsulesWithGuid_ne_zero caps g hg
    simp [hne]
  refine ⟨?_, collectGuidCache_nodup caps, mem_collectGuidCache caps, ?_⟩
  · rw [hpop, hfilter, List.map_map]
    exact List.map_id _
  · intro e he
    rw [hpop] at he
    rcases List.mem_map.mp he with ⟨g, _, rfl⟩
    refine ⟨rfl, rfl, ?_⟩
    intro c hcmem
    have hflag := (List.mem_filter.mp hcmem).2
    simp only [Bool.and_eq_true] at hflag
    exact hflag.1

/-- Witness for CLAIM C5, at the spec's own example: capsules A and B share
GUID 1, C has GUID 2, all three flagged; D is unflagged; exactly the entries
for GUID 1 and GUID 2 are registered, in that order. -/
theorem claim_c5_publish_witness :
    (PopulateCapsuleInConfigurationTable baseEnv
        [⟨⟨1⟩, 0x10000⟩, ⟨⟨1⟩, 0x10000⟩, ⟨⟨2⟩, 0x10000⟩, ⟨⟨3⟩, 0⟩]).map
      CapsuleTableEntry.guid = [⟨1⟩, ⟨2⟩] := by
  have h := claim_c5_publish baseEnv
    [⟨⟨1⟩, 0x10000⟩, ⟨⟨1⟩, 0x10000⟩, ⟨⟨2⟩, 0x10000⟩, ⟨⟨3⟩, 0⟩] rfl rfl
  rw [h.1]
  decide

/-- CLAIM C4 counterexample - the claim says an unrecoverable allocation
failure during discovery is propagated as EFI_OUT_OF_RESOURCES; in fact,
with the `mCapsulePtr` allocation failing and a valid capsule staged in the
HOB list, the pass still returns EFI_SUCCESS (discovery degrades to zero
capsules and no error path returns EFI_OUT_OF_RESOURCES). -/
theorem claim_c4_counterexample :
    ({ baseEnv with allocCapsulePtrOk := false } : Env).allocCapsulePtrOk
        = false
    ∧ ({ baseEnv with allocCapsulePtrOk := false } : Env).IsValidCapsuleHeader
        plainCapsule 10 = true
    ∧ (ProcessTheseCapsules { baseEnv with allocCapsulePtrOk := false } true
        [⟨plainCapsule, 10⟩] pristineState).ret = EfiStatus.success
    ∧ EfiStatus.success ≠ EfiStatus.outOfResources := by
  refine ⟨rfl, rfl, ?_, by decide⟩
  decide

/-- CLAIM C4 (amended) - the dispatcher pass returns success in every run;
an allocation failure during discovery degrades to an empty capsule
sequence and is never propagated to the caller, and per-capsule
classification, validation, or apply failures never change the return value
either (they are reported only through the status array). -/
theorem claim_c4_return (env : Env) (fr : Bool) (hobs : List Hob)
    (st : CapsuleState) :
    (ProcessTheseCapsules env fr hobs st).ret = EfiStatus.success :=
  ProcessTheseCapsules_ret_success env fr hobs st

/-- CLAIM C2 counterexample - the claim counts the AlwaysReset flag of every
flagged capsule across the pass; in fact a flagged capsule that never
reaches the apply delegate (here: it fails the FMP shape probe and is
aborted) contributes nothing, so the final flag is false while the claim's
formula yields true. -/
theorem claim_c2_counterexample :
    (ProcessTheseCapsules { baseEnv with IsFmpCapsule := fun _ => false } true
        [⟨alwaysResetCapsule, 10⟩] pristineState).state.needReset = false
    ∧ c2ClaimedReset { baseEnv with IsFmpCapsule := fun _ => false } true
        (effectiveStart { baseEnv with IsFmpCapsule := fun _ => false } true
          [⟨alwaysResetCapsule, 10⟩] pristineState) = true := by
  decide

/-- CLAIM C2 (amended) - at the end of a pass, `mNeedReset` equals its value
at the start of the pass OR-ed with, for every capsule the apply delegate
ran on with a terminal outcome, the delegate's reset hint OR that capsule's
AlwaysReset flag (capsules that never reach the delegate, or whose apply
returned EFI_NOT_READY, contribute nothing); the flag is monotone: neither
the pass nor any single sweep step ever changes it from true to false. -/
theorem claim_c2_reset_flag (env : Env) (fr : Bool) (hobs : List Hob)
    (st : CapsuleState) :
    (ProcessTheseCapsules env fr hobs st).state.needReset
        = ((effectiveStart env fr hobs st).needReset
            || passResetOr env fr (effectiveStart env fr hobs st))
    ∧ ((effectiveStart env fr hobs st).needReset = true →
        (ProcessTheseCapsules env fr hobs st).state.needReset = true)
    ∧ (∀ (caps : List CapsuleHeader) (s : SweepState) (i : Nat),
        s.needReset = true → (sweepStep env fr caps s i).needReset = true) := by
  refine ⟨ProcessTheseCapsules_needReset env fr hobs st, ?_, ?_⟩
  · intro h
    rw [ProcessTheseCapsules_needReset env fr hobs st, h, Bool.true_or]
  · intro caps s i h
    rw [(sweepStep_spec env fr caps s i).2.2.2, h, Bool.true_or]

/-- Witness for CLAIM C2 at a concrete input: a pass entered with the flag
already set ends with it still set. -/
theorem claim_c2_reset_flag_witness :
    (ProcessTheseCapsules baseEnv true [⟨alwaysResetCapsule, 10⟩]
        ⟨[], [], true⟩).state.needReset = true := by
  exact (claim_c2_reset_flag baseEnv true [⟨alwaysResetCapsule, 10⟩]
    ⟨[], [], true⟩).2.1 (by decide)

/-- CLAIM C9 - `ProcessCapsules` as currently built runs exactly one
dispatcher pass with FirstRound = TRUE; afterwards, iff `mNeedReset` is set,
it calls `DoResetSystem`, which issues a cold reset tagged
`gCapsuleUpdateCompleteResetGuid` and never returns (modelled as the
`halted` outcome); otherwise it returns the pass's status to its caller. -/
theorem claim_c9_single_pass (env : Env) (hobs : List Hob)
    (st : CapsuleState) :
    (ProcessCapsules env hobs st).passes = [true]
    ∧ (ProcessCapsules env hobs st).pass = ProcessTheseCapsules env true hobs st
    ∧ ((ProcessTheseCapsules env true hobs st).state.needReset = true →
        (ProcessCapsules env hobs st).outcome
          = BootOutcome.halted
              ⟨ResetType.cold, gCapsuleUpdateCompleteResetGuid⟩)
    ∧ ((ProcessTheseCapsules env true hobs st).state.needReset = false →
        (ProcessCapsules env hobs st).outcome
          = BootOutcome.returned (ProcessTheseCapsules env true hobs st).ret)
    ∧ (∀ req, (ProcessCapsules env hobs st).outcome = BootOutcome.halted req →
        req = ⟨ResetType.cold, gCapsuleUpdateCompleteResetGuid⟩) := by
  unfold ProcessCapsules
  by_cases h : (ProcessTheseCapsules env true hobs st).state.needReset = true
  · rw [if_pos h]
    refine ⟨rfl, rfl, fun _ => rfl, ?_, ?_⟩
    · intro hf
      rw [hf] at h
      exact absurd h (by decide)
    · intro req hreq
      cases hreq
      rfl
  · rw [if_neg h]
    refine ⟨rfl, rfl, fun ht => absurd ht h, fun _ => rfl, ?_⟩
    intro req hreq
    simp at hreq

/-- Witness for CLAIM C9 at a concrete input: a capsule whose apply requests
a reset makes `ProcessCapsules` halt in the cold capsule-update-complete
reset. -/
theorem claim_c9_single_pass_witness :
    (ProcessCapsules
        { baseEnv with ProcessThisCapsuleImage :=
            fun _ => (EfiStatus.success, true) }
        [⟨plainCapsule, 10⟩] pristineState).outcome
      = BootOutcome.halted
          ⟨ResetType.cold, gCapsuleUpdateCompleteResetGuid⟩ := by
  exact (claim_c9_single_pass
    { baseEnv with ProcessThisCapsuleImage :=
        fun _ => (EfiStatus.success, true) }
    [⟨plainCapsule, 10⟩] pristineState).2.2.1 (by decide)

/-- CLAIM C8 counterexample - the claim says every accepted report below 100
re-arms the watchdog with the timeout sourced from the progress protocol; in
fact, when the protocol is present with `WatchdogSeconds = 0`, a 50% report
cancels the watchdog and calls the display but makes no re-arming watchdog
call at all (every watchdog call it makes has timeout 0). -/
theorem claim_c8_counterexample :
    (UpdateImageProgress { baseEnv with fmpProgress := some ⟨0, 7⟩ } 50).2
        = [ProgressEvent.watchdog 0, ProgressEvent.display 50 (some 7)]
    ∧ ((UpdateImageProgress { baseEnv with fmpProgress := some ⟨0, 7⟩ } 50).2.all
        (fun e => match e with
          | ProgressEvent.watchdog sec => sec == 0
          | _ => true) = true) := by
  decide

/-- CLAIM C8 (amended) - `UpdateImageProgress` rejects a percentage above
100 with EFI_INVALID_PARAMETER and no side effect; otherwise it cancels the
watchdog, then - unless the percentage is 100 or the sourced timeout is
zero - re-arms it with the timeout from the progress protocol when present
(default 300 seconds otherwise), then forwards the percentage and the
protocol color to the display delegate and returns that delegate's result;
in particular a 100% report cancels the watchdog and does not re-arm it. -/
theorem claim_c8_progress (env : Env) (completion : Nat) :
    UpdateImageProgress env completion
      = if 100 < completion then (EfiStatus.invalidParameter, [])
        else (env.DisplayUpdateProgress completion (progressColor env),
          [ProgressEvent.watchdog 0]
            ++ (if completion ≠ 100 ∧ progressWatchdogSeconds env ≠ 0 then
                  [ProgressEvent.watchdog (progressWatchdogSeconds env)]
                else [])
            ++ [ProgressEvent.display completion (progressColor env)]) := by
  unfold UpdateImageProgress progressColor progressWatchdogSeconds
  by_cases h : 100 < completion
  · simp [h]
  · simp only [h, if_false]
    cases hp : env.fmpProgress with
    | none =>
      by_cases h100 : completion = 100
      · simp [h100]
      · simp [h100]
    | some p =>
      by_cases h100 : completion = 100
      · simp [h100]
      · by_cases hz : p.watchdogSeconds = 0
        · simp [h100, hz]
        · simp [h100, hz]

/-- CLAIM C10 - `Update_Image_Progress` keeps only the low byte of its
argument as the percentage and bits 8-31 as the display color; it rejects
with EFI_INVALID_PARAMETER (and no watchdog or display call) exactly when
the low byte exceeds 100, and accepts - proceeding to the watchdog and
display calls - whenever the low byte is at most 100, even when the full
argument value is greater than 100. -/
theorem claim_c10_low_byte (env : Env) (completionArg : Nat) :
    (Update_Image_Progress env completionArg
        = if 100 < completionArg &&& 0xFF then (EfiStatus.invalidParameter, [])
          else (env.DisplayUpdateProgress (completionArg &&& 0xFF)
              (some ((completionArg >>> 8) &&& 0xFFFFFF)),
            [ProgressEvent.watchdog 0]
              ++ (if completionArg &&& 0xFF ≠ 100 then
                    [ProgressEvent.watchdog
                      env.pcdCapsuleUpdateWatchdogSeconds]
                  else [])
              ++ [ProgressEvent.display (completionArg &&& 0xFF)
                  (some ((completionArg >>> 8) &&& 0xFFFFFF))]))
    ∧ (completionArg &&& 0xFF ≤ 100 →
        (Update_Image_Progress env completionArg).2 ≠ []) := by
  have heq : Update_Image_Progress env completionArg
      = if 100 < completionArg &&& 0xFF then (EfiStatus.invalidParameter, [])
        else (env.DisplayUpdateProgress (completionArg &&& 0xFF)
            (some ((completionArg >>> 8) &&& 0xFFFFFF)),
          [ProgressEvent.watchdog 0]
            ++ (if completionArg &&& 0xFF ≠ 100 then
                  [ProgressEvent.watchdog env.pcdCapsuleUpdateWatchdogSeconds]
                else [])
            ++ [ProgressEvent.display (completionArg &&& 0xFF)
                (some ((completionArg >>> 8) &&& 0xFFFFFF))]) := by
    unfold Update_Image_Progress
    by_cases h : 100 < completionArg &&& 0xFF
    · simp [h]
    · by_cases h100 : completionArg &&& 0xFF = 100
      · simp [h, h100]
      · simp [h, h100]
  refine ⟨heq, ?_⟩
  intro hle
  rw [heq]
  have hnl : ¬ 100 < completionArg &&& 0xFF := Nat.not_lt.mpr hle
  simp [hnl]

/-- Witness for CLAIM C10 at a concrete input: the argument 336 (low byte
80, full value above 100) is accepted and produces watchdog and display
calls. -/
theorem claim_c10_low_byte_witness :
    336 &&& 0xFF ≤ 100 ∧ 100 < 336
      ∧ (Update_Image_Progress baseEnv 336).2 ≠ [] := by
  refine ⟨by decide, by decide, ?_⟩
  exact (claim_c10_low_byte baseEnv 336).2 (by decide)

/-- CLAIM C7 - a capsule handled in the general sweep (Pending at the start
of the pass, not the UX capsule) that fails the `IsFmpCapsule` shape probe,
or passes it but fails `ValidateFmpCapsule`, ends the pass with status
EFI_ABORTED and the apply delegate is never invoked on it. -/
theorem claim_c7_aborted (env : Env) (fr : Bool) (hobs : List Hob)
    (st : CapsuleState) (i : Nat) (c : CapsuleHeader)
    (hc : (effectiveStart env fr hobs st).capsules[i]? = some c)
    (hg : c.capsuleGuid ≠ gWindowsUxCapsuleGuid)
    (hp : (effectiveStart env fr hobs st).statuses[i]?
            = some EfiStatus.notReady)
    (hfail : env.IsFmpCapsule c = false ∨
      (env.IsFmpCapsule c = true ∧ env.ValidateFmpCapsule c = none)) :
    (ProcessTheseCapsules env fr hobs st).state.statuses[i]?
        = some EfiStatus.aborted
    ∧ i ∉ (ProcessTheseCapsules env fr hobs st).applied := by
  have h := ProcessTheseCapsules_at_nonux env fr hobs st i c hc hg hp
  constructor
  · rw [h.1]
    rcases hfail with hf | ⟨hf, hv⟩
    · simp [capsuleOutcome, hg, hf]
    · simp [capsuleOutcome, hg, hf, hv]
  · intro hmem
    have happ := h.2.mp hmem
    rcases hfail with hf | ⟨hf, hv⟩
    · simp [capsuleAppliedHere, hf] at happ
    · simp [capsuleAppliedHere, hf, hv] at happ

/-- Witness for CLAIM C7 at a concrete input: a capsule failing the shape
probe is aborted without reaching the apply delegate. -/
theorem claim_c7_aborted_witness :
    (ProcessTheseCapsules { baseEnv with IsFmpCapsule := fun _ => false } true
        [⟨plainCapsule, 10⟩] pristineState).state.statuses[0]?
        = some EfiStatus.aborted
    ∧ 0 ∉ (ProcessTheseCapsules { baseEnv with IsFmpCapsule := fun _ => false }
        true [⟨plainCapsule, 10⟩] pristineState).applied := by
  exact claim_c7_aborted { baseEnv with IsFmpCapsule := fun _ => false } true
    [⟨plainCapsule, 10⟩] pristineState 0 plainCapsule (by decide) (by decide)
    (by decide) (Or.inl (by decide))

/-- CLAIM C1 - a Pending, validated FMP capsule (not the UX capsule) with a
positive EmbeddedDriverCount is deferred on a FirstRound pass: the apply
delegate is not invoked and it stays Pending; on the subsequent pass with
FirstRound = FALSE that same capsule is processed (the delegate runs on it).
In every other case - FirstRound FALSE, or EmbeddedDriverCount zero - the
delegate runs on it in the same pass. -/
theorem claim_c1_deferral (env : Env) (hobs : List Hob)
    (st0 st : CapsuleState) (i dc : Nat) (c : CapsuleHeader) :
    ((effectiveStart env true hobs st0).capsules[i]? = some c →
      c.capsuleGuid ≠ gWindowsUxCapsuleGuid →
      env.IsFmpCapsule c = true →
      env.ValidateFmpCapsule c = some dc →
      0 < dc →
      i ∉ (ProcessTheseCapsules env true hobs st0).applied
      ∧ (ProcessTheseCapsules env true hobs st0).state.statuses[i]?
          = some EfiStatus.notReady
      ∧ i ∈ (ProcessTheseCapsules env false hobs
              (ProcessTheseCapsules env true hobs st0).state).applied)
    ∧ (∀ fr : Bool,
        (effectiveStart env fr hobs st).capsules[i]? = some c →
        (effectiveStart env fr hobs st).statuses[i]?
            = some EfiStatus.notReady →
        c.capsuleGuid ≠ gWindowsUxCapsuleGuid →
        env.IsFmpCapsule c = true →
        env.ValidateFmpCapsule c = some dc →
        (fr = false ∨ dc = 0) →
        i ∈ (ProcessTheseCapsules env fr hobs st).applied) := by
  constructor
  · intro hc hg hf hv hdc
    have hp1 : (effectiveStart env true hobs st0).statuses[i]?
        = some EfiStatus.notReady := by
      have hd : effectiveStart env true hobs st0 =
          ⟨(InitCapsulePtr env hobs).1, (InitCapsulePtr env hobs).2,
            st0.needReset⟩ := rfl
      rcases InitCapsulePtr_shape env hobs with hsh | hsh
      · rw [hd, hsh] at hc
        simp at hc
      · rw [hd, hsh] at hc ⊢
        have hlt := (List.getElem?_eq_some.mp hc).1
        simp only at hlt ⊢
        rw [List.length_map] at hlt
        simp [List.getElem?_replicate, hlt]
      
    have hfirst := ProcessTheseCapsules_at_nonux env true hobs st0 i c hc hg hp1
    have hgb : (c.capsuleGuid == gWindowsUxCapsuleGuid) = false :=
      beq_eq_false_iff_ne.mpr hg
    have hdcz : (dc == 0) = false := by
      simp only [beq_eq_false_iff_ne, ne_eq]
      omega
    have hnotapp : capsuleAppliedHere env true c EfiStatus.notReady = false := by
      simp [capsuleAppliedHere, hgb, hf, hv, hdcz]
    have hstay : capsuleOutcome env true c EfiStatus.notReady
        = EfiStatus.notReady := by
      simp [capsuleOutcome, hg, hf, hv, hdcz]
    refine ⟨?_, ?_, ?_⟩
    · intro hmem
      rw [hfirst.2.mp hmem] at hnotapp
      exact absurd hnotapp (by decide)
    · rw [hfirst.1, hstay]
    · have hc2 : (ProcessTheseCapsules env true hobs st0).state.capsules[i]?
          = some c := by
        rw [ProcessTheseCapsules_capsules env true hobs st0]
        exact hc
      have hp2 : (ProcessTheseCapsules env true hobs st0).state.statuses[i]?
          = some EfiStatus.notReady := by
        rw [hfirst.1, hstay]
      have hsecond := ProcessTheseCapsules_at_nonux env false hobs
        (ProcessTheseCapsules env true hobs st0).state i c hc2 hg hp2
      apply hsecond.2.mpr
      simp [capsuleAppliedHere, hgb, hf, hv]
  · intro fr hc hp hg hf hv hcase
    have hgb : (c.capsuleGuid == gWindowsUxCapsuleGuid) = false :=
      beq_eq_false_iff_ne.mpr hg
    have happ : capsuleAppliedHere env fr c EfiStatus.notReady = true := by
      rcases hcase with rfl | rfl
      · simp [capsuleAppliedHere, hgb, hf, hv]
      · simp [capsuleAppliedHere, hgb, hf, hv]
    exact (ProcessTheseCapsules_at_nonux env fr hobs st i c hc hg hp).2.mpr happ

/-- Witness for CLAIM C1 at a concrete input: a validated FMP capsule with
two embedded drivers is deferred on the first round and processed in the
second-round pass. -/
theorem claim_c1_deferral_witness :
    0 ∉ (ProcessTheseCapsules
        { baseEnv with ValidateFmpCapsule := fun _ => some 2 } true
        [⟨driverCapsule, 10⟩] pristineState).applied
    ∧ (ProcessTheseCapsules
        { baseEnv with ValidateFmpCapsule := fun _ => some 2 } true
        [⟨driverCapsule, 10⟩] pristineState).state.statuses[0]?
        = some EfiStatus.notReady
    ∧ 0 ∈ (ProcessTheseCapsules
        { baseEnv with ValidateFmpCapsule := fun _ => some 2 } false
        [⟨driverCapsule, 10⟩]
        (ProcessTheseCapsules
          { baseEnv with ValidateFmpCapsule := fun _ => some 2 } true
          [⟨driverCapsule, 10⟩] pristineState).state).applied := by
  exact (claim_c1_deferral
    { baseEnv with ValidateFmpCapsule := fun _ => some 2 }
    [⟨driverCapsule, 10⟩] pristineState pristineState 0 2 driverCapsule).1
    (by decide) (by decide) (by decide) (by decide) (by decide)

/-- CLAIM C3 counterexample - the claim quantifies over every pass over a
non-empty sequence, but a pass on which every status is already terminal
short-circuits before the UX scan: with a single UX capsule already marked
EFI_SUCCESS, the pass invokes the apply delegate on nothing. -/
theorem claim_c3_counterexample :
    ([uxCapsule] : List CapsuleHeader) ≠ []
    ∧ findUxIdx [uxCapsule] = some 0
    ∧ (ProcessTheseCapsules baseEnv false []
        ⟨[uxCapsule], [EfiStatus.success], false⟩).applied = [] := by
  decide

/-- CLAIM C3 (amended) - in every pass over a non-empty sequence in which at
least one status is still Pending, the first capsule (in discovery order)
carrying the UX GUID has the apply delegate invoked on it and its status set
to EFI_SUCCESS regardless of the delegate's result; no capsule before it
carries the UX GUID, every other UX-GUID capsule is neither applied nor
touched, and the pass's return value is EFI_SUCCESS whatever the delegate
returned. -/
theorem claim_c3_ux_first (env : Env) (fr : Bool) (hobs : List Hob)
    (st : CapsuleState) (u : Nat)
    (hlen : (effectiveStart env fr hobs st).statuses.length
        = (effectiveStart env fr hobs st).capsules.length)
    (hu : findUxIdx (effectiveStart env fr hobs st).capsules = some u)
    (h1 : AreAllImagesProcessed (effectiveStart env fr hobs st).statuses
        = false) :
    u ∈ (ProcessTheseCapsules env fr hobs st).applied
    ∧ (ProcessTheseCapsules env fr hobs st).state.statuses[u]?
        = some EfiStatus.success
    ∧ (∀ j c, j < u →
        (effectiveStart env fr hobs st).capsules[j]? = some c →
        c.capsuleGuid ≠ gWindowsUxCapsuleGuid)
    ∧ (∀ j c, j ≠ u →
        (effectiveStart env fr hobs st).capsules[j]? = some c →
        c.capsuleGuid = gWindowsUxCapsuleGuid →
        j ∉ (ProcessTheseCapsules env fr hobs st).applied
        ∧ (ProcessTheseCapsules env fr hobs st).state.statuses[j]?
            = (effectiveStart env fr hobs st).statuses[j]?)
    ∧ (ProcessTheseCapsules env fr hobs st).ret = EfiStatus.success := by
  have hx := ProcessTheseCapsules_at_ux env fr hobs st u hlen hu h1
  refine ⟨hx.2, hx.1, findUxIdx_first _ _ hu, ?_,
    ProcessTheseCapsules_ret_success env fr hobs st⟩
  intro j c hj hc hg
  apply ProcessTheseCapsules_ux_other env fr hobs st j c hc hg
  rw [hu]
  intro heq
  exact hj (Option.some.inj heq).symm

/-- Witness for CLAIM C3 at a concrete input: with a UX capsule first and a
plain Pending capsule after it, the UX capsule is applied and ends
EFI_SUCCESS even though its apply delegate fails. -/
theorem claim_c3_ux_first_witness :
    0 ∈ (ProcessTheseCapsules
        { baseEnv with ProcessThisCapsuleImage :=
            fun _ => (EfiStatus.deviceError, false) } false []
        ⟨[uxCapsule, plainCapsule],
          [EfiStatus.notReady, EfiStatus.notReady], false⟩).applied
    ∧ (ProcessTheseCapsules
        { baseEnv with ProcessThisCapsuleImage :=
            fun _ => (EfiStatus.deviceError, false) } false []
        ⟨[uxCapsule, plainCapsule],
          [EfiStatus.notReady, EfiStatus.notReady], false⟩).state.statuses[0]?
        = some EfiStatus.success := by
  have h := claim_c3_ux_first
    { baseEnv with ProcessThisCapsuleImage :=
        fun _ => (EfiStatus.deviceError, false) } false []
    ⟨[uxCapsule, plainCapsule], [EfiStatus.notReady, EfiStatus.notReady],
      false⟩ 0 (by decide) (by decide) (by decide)
  exact ⟨h.1, h.2.1⟩

/-- CLAIM C6 counterexample - the claim allows a start-of-pass Pending entry
to stay Pending only by embedded-driver deferral or a not-ready apply; but a
second UX-GUID capsule is skipped by both the UX scan (which stops at the
first match) and the general sweep (which skips the UX GUID), so it stays
Pending with the apply delegate never invoked and deferral impossible
(`ValidateFmpCapsule` reports zero embedded drivers here). -/
theorem claim_c6_counterexample :
    (effectiveStart baseEnv true [⟨uxCapsule, 10⟩, ⟨uxCapsule, 10⟩]
        pristineState).statuses = [EfiStatus.notReady, EfiStatus.notReady]
    ∧ (ProcessTheseCapsules baseEnv true [⟨uxCapsule, 10⟩, ⟨uxCapsule, 10⟩]
        pristineState).state.statuses
        = [EfiStatus.success, EfiStatus.notReady]
    ∧ 1 ∉ (ProcessTheseCapsules baseEnv true [⟨uxCapsule, 10⟩, ⟨uxCapsule, 10⟩]
        pristineState).applied
    ∧ baseEnv.ValidateFmpCapsule uxCapsule = some 0 := by
  decide

/-- CLAIM C6 (amended) - across a pass from a reachable state: no operation
changes a status entry already holding a terminal (non-Pending) value; and a
status entry Pending at the start of the pass that is still Pending at its
end is either a UX-GUID capsule other than the first one (never handled), or
a validated FMP capsule that was deferred (FirstRound with a positive
embedded-driver count) or whose apply delegate ran and returned
EFI_NOT_READY. -/
theorem claim_c6_transitions (env : Env) (fr : Bool) (hobs : List Hob)
    (st : CapsuleState) (hreach : Reachable env hobs st) :
    (∀ (i : Nat) (old : EfiStatus),
        (effectiveStart env fr hobs st).statuses[i]? = some old →
        old ≠ EfiStatus.notReady →
        (ProcessTheseCapsules env fr hobs st).state.statuses[i]? = some old)
    ∧ (∀ (i : Nat) (c : CapsuleHeader),
        (effectiveStart env fr hobs st).capsules[i]? = some c →
        (effectiveStart env fr hobs st).statuses[i]?
            = some EfiStatus.notReady →
        (ProcessTheseCapsules env fr hobs st).state.statuses[i]?
            = some EfiStatus.notReady →
        (c.capsuleGuid = gWindowsUxCapsuleGuid
            ∧ findUxIdx (effectiveStart env fr hobs st).capsules ≠ some i)
        ∨ (∃ dc, env.IsFmpCapsule c = true
            ∧ env.ValidateFmpCapsule c = some dc
            ∧ ((fr = true ∧ 0 < dc)
               ∨ ((env.ProcessThisCapsuleImage c).1 = EfiStatus.notReady
                  ∧ i ∈ (ProcessTheseCapsules env fr hobs st).applied)))) := by
  have hinv : uxInvariant (effectiveStart env fr hobs st) := by
    cases fr with
    | true => exact effectiveStart_true_uxInvariant env hobs st
    | false =>
      simpa [effectiveStart] using reachable_uxInvariant env hobs st hreach
  constructor
  · intro i old hp hterm
    apply ProcessTheseCapsules_terminal env fr hobs st i old hp hterm
    intro hfu
    rcases hinv.2 i hfu with h | h
    · rw [hp] at h
      exact absurd (Option.some.inj h) hterm
    · rw [hp] at h
      exact Option.some.inj h
  · intro i c hc hp hfinal
    by_cases hg : c.capsuleGuid = gWindowsUxCapsuleGuid
    · left
      refine ⟨hg, ?_⟩
      intro hfu
      have hx := ProcessTheseCapsules_at_ux env fr hobs st i hinv.1 hfu
        (allProcessed_false _ _ hp)
      rw [hx.1] at hfinal
      exact absurd (Option.some.inj hfinal) (by decide)
    · right
      have hd := ProcessTheseCapsules_at_nonux env fr hobs st i c hc hg hp
      rw [hd.1] at hfinal
      have hout : capsuleOutcome env fr c EfiStatus.notReady
          = EfiStatus.notReady := Option.some.inj hfinal
      by_cases hf : env.IsFmpCapsule c = true
      · cases hv : env.ValidateFmpCapsule c with
        | none =>
          rw [capsuleOutcome] at hout
          simp [hg, hf, hv] at hout
        | some dc =>
          refine ⟨dc, hf, rfl, ?_⟩
          by_cases hcond : ((!fr) || dc == 0) = true
          · right
            have hres : (env.ProcessThisCapsuleImage c).1
                = EfiStatus.notReady := by
              rw [capsuleOutcome] at hout
              simp only [hg, hf, hv, hcond] at hout
              simpa [if_pos] using hout
            refine ⟨hres, ?_⟩
            apply hd.2.mpr
            have hgb : (c.capsuleGuid == gWindowsUxCapsuleGuid) = false :=
              beq_eq_false_iff_ne.mpr hg
            simp [capsuleAppliedHere, hgb, hf, hv, hcond]
          · left
            have hfr : fr = true := by
              cases fr with
              | true => rfl
              | false => simp at hcond
            have hdc : ¬ dc = 0 := by
              intro hz
              subst hz
              simp at hcond
            exact ⟨hfr, Nat.pos_of_ne_zero hdc⟩
      · rw [capsuleOutcome] at hout
        simp only [hg, hf] at hout
        simp at hout

/-- Witness for CLAIM C6 at a concrete input: an entry aborted in a first
pass keeps its terminal status through a second pass from the reachable
state. -/
theorem claim_c6_transitions_witness :
    (ProcessTheseCapsules { baseEnv with IsFmpCapsule := fun _ => false }
        false [⟨plainCapsule, 10⟩]
        (ProcessTheseCapsules { baseEnv with IsFmpCapsule := fun _ => false }
          true [⟨plainCapsule, 10⟩] pristineState).state).state.statuses[0]?
      = some EfiStatus.aborted := by
  have h := claim_c6_transitions
    { baseEnv with IsFmpCapsule := fun _ => false } false
    [⟨plainCapsule, 10⟩] _ (Reachable.first pristineState)
  exact h.1 0 EfiStatus.aborted (by decide) (by decide)
